import Mathlib

/-!
# Verification of the markitdown-api document-enrichment pipeline

This file shallowly embeds the pure text/metadata transformations of
`classes/services.py`, the retention sweep of `classes/image_extractor.py`
and the scheduler start-up validation of `classes/scheduler.py`, and proves
or refutes the frozen claims about them.

Conventions:
* Python strings are modelled as `List Char` (ASCII semantics for the
  case/character-class predicates, which is faithful for the ASCII inputs
  the theorems use).
* Python regular expressions are modelled by an abstract syntax `RE`
  together with a backtracking matcher `reM` that mirrors CPython's
  leftmost / greedy / first-alternative semantics; each pattern literal of
  the source is transcribed into an `RE` value next to a comment citing it.
* Filesystem-touching code (folder creation, file writes, deletion) is
  modelled by explicit state: written files become association lists,
  the image-storage root becomes a list of entries.
-/

set_option maxRecDepth 8000

/-! ## ASCII character helpers (Python `str` method semantics, ASCII range) -/

/-- ASCII decimal digit, as matched by `\d` (ASCII inputs). -/
def pyIsDigit (c : Char) : Bool := '0' ≤ c && c ≤ '9'

/-- ASCII upper-case letter; Python `str.isupper` on a single ASCII char. -/
def pyIsUpper (c : Char) : Bool := 'A' ≤ c && c ≤ 'Z'

/-- ASCII lower-case letter; Python `str.islower` on a single ASCII char. -/
def pyIsLower (c : Char) : Bool := 'a' ≤ c && c ≤ 'z'

/-- ASCII letter. -/
def pyIsAlpha (c : Char) : Bool := pyIsUpper c || pyIsLower c

/-- Python whitespace for `str.strip` / `str.split()` / regex `\s` (ASCII). -/
def pyIsSpace (c : Char) : Bool :=
  c = ' ' || c = '\t' || c = '\n' || c = '\r' || c = '\x0b' || c = '\x0c'

/-- Regex `\w` (ASCII): letter, digit or underscore. -/
def pyIsWord (c : Char) : Bool := pyIsAlpha c || pyIsDigit c || c = '_'

/-- ASCII lower-casing, as `str.lower` / `re.IGNORECASE` use it. -/
def pyToLower (c : Char) : Char :=
  if pyIsUpper c then Char.ofNat (c.toNat + 32) else c

/-! ## Python string operations on `List Char` -/

/-- Shorthand: the character list of a string literal. -/
def str (s : String) : List Char := s.data

/-- Python `str.lower()`. -/
def pyLower (s : List Char) : List Char := s.map pyToLower

/-- Python `str.strip()` (no arguments: strip whitespace from both ends). -/
def pyStrip (s : List Char) : List Char :=
  ((s.dropWhile pyIsSpace).reverse.dropWhile pyIsSpace).reverse

/-- Python `s.split('\n')`. -/
def pySplitNl (s : List Char) : List (List Char) :=
  match s with
  | [] => [[]]
  | c :: rest =>
    let tail := pySplitNl rest
    if c = '\n' then [] :: tail
    else
      match tail with
      | [] => [[c]]
      | l :: ls => (c :: l) :: ls

/-- Python `'\n'.join(lines)`. -/
def pyJoinNl (ls : List (List Char)) : List Char :=
  match ls with
  | [] => []
  | [l] => l
  | l :: ls => l ++ '\n' :: pyJoinNl ls

/-- Worker for `pySplitWs`; `acc` is the current word, reversed. -/
def splitWsGo : List Char → List Char → List (List Char)
  | [], acc => if acc.isEmpty then [] else [acc.reverse]
  | c :: rest, acc =>
    if pyIsSpace c then
      if acc.isEmpty then splitWsGo rest [] else acc.reverse :: splitWsGo rest []
    else splitWsGo rest (c :: acc)

/-- Python `str.split()` (split on whitespace runs, dropping empties). -/
def pySplitWs (s : List Char) : List (List Char) := splitWsGo s []

/-- Python `needle in haystack` (substring containment). -/
def containsSub (haystack needle : List Char) : Bool :=
  match haystack with
  | [] => needle.isPrefixOf ([] : List Char)
  | _ :: rest => needle.isPrefixOf haystack || containsSub rest needle

/-- Worker for `countSub`; the fuel is an upper bound on the scan length. -/
def countSubGo : Nat → List Char → List Char → Nat
  | 0, _, _ => 0
  | _ + 1, [], _ => 0
  | fuel + 1, h, needle =>
    if needle.isPrefixOf h then 1 + countSubGo fuel (h.drop needle.length) needle
    else countSubGo fuel h.tail needle

/-- Python `str.count(sub)` for a nonempty `sub`: non-overlapping
occurrences. -/
def countSub (haystack needle : List Char) : Nat :=
  countSubGo (haystack.length + 1) haystack needle

/-- Python slice `s[lo:hi]` for `0 ≤ lo ≤ hi` (out-of-range indices clamp). -/
def pySlice {α : Type} (s : List α) (lo hi : Nat) : List α :=
  (s.drop lo).take (hi - lo)

/-- `s[i]` as an `Option`. -/
def charAt? (s : List Char) (i : Nat) : Option Char := s.drop i |>.head?

/-! ## A model of Python `re` (the fragment the source uses)

`RE` is the abstract syntax of the patterns appearing in the source.  The
matcher `reM` follows CPython's backtracking order: alternatives left to
right, greedy repetitions longest-first, lazy repetitions shortest-first;
`reSearch` tries start positions left to right; `reFindIter` yields
non-overlapping matches scanning left to right.  Captures are stored as
`(group index, captured text)`, most recent first.  A fuel argument keeps
the matcher structurally recursive; every call consumes one unit, so the
fuel bounds the depth of one backtracking path, and the generous bound
`reFuel` below is never reached by the patterns and inputs in this file. -/

inductive RE where
  | lit (s : List Char)
  | cls (p : Char → Bool)
  | seq (a b : RE)
  | alt (a b : RE)
  | rep (lo : Nat) (hi : Option Nat) (r : RE)
  | repLazy (lo : Nat) (hi : Option Nat) (r : RE)
  | group (n : Nat) (r : RE)
  | backref (n : Nat)
  | look (neg : Bool) (r : RE)
  | lookbehindNot (s : List Char)
  | bound
  | start
  | stop

/-- Sequencing a list of regexes. -/
def RE.cat : List RE → RE
  | [] => .lit []
  | [r] => r
  | r :: rs => .seq r (RE.cat rs)

/-- Character comparison, optionally `re.IGNORECASE`. -/
def charEq (ci : Bool) (a b : Char) : Bool :=
  if ci then pyToLower a = pyToLower b else a = b

/-- Match a literal against the head of the input. -/
def litMatch (ci : Bool) : List Char → List Char → Option (List Char)
  | [], rest => some rest
  | _ :: _, [] => none
  | a :: as, b :: bs => if charEq ci a b then litMatch ci as bs else none

/-- Captured groups: `(index, text)`, most recent first. -/
def Caps := List (Nat × List Char)

/-- Latest capture of group `n`. -/
def capLookup (caps : Caps) (n : Nat) : Option (List Char) :=
  match caps with
  | [] => none
  | (m, t) :: rest => if m = n then some t else capLookup rest n

/-- Does `input` end with `s` at position `pos` (for `(?<!...)`)? -/
def endsWithAt (ci : Bool) (input : List Char) (pos : Nat) (s : List Char) : Bool :=
  s.length ≤ pos && (litMatch ci s (pySlice input (pos - s.length) pos)).isSome

/-- Is position `pos` (with input suffix `rest`) a `\b` word boundary? -/
def atWordBoundary (input : List Char) (pos : Nat) (rest : List Char) : Bool :=
  let before := match charAt? input (pos - 1) with
    | some c => pos ≠ 0 && pyIsWord c
    | none => false
  let after := match rest with
    | c :: _ => pyIsWord c
    | [] => false
  before != after

/-- The backtracking matcher, in continuation-passing style.  `pos` is the
absolute position in `input` and `rest = input.drop pos`.  The continuation
receives the new position, suffix and captures; the first success in
CPython's exploration order wins. -/
def reM (ci : Bool) (input : List Char) : Nat → RE → Nat → List Char → Caps →
    (Nat → List Char → Caps → Option (Nat × Caps)) → Option (Nat × Caps)
  | 0, _, _, _, _, _ => none
  | _ + 1, .lit s, pos, rest, caps, k =>
    match litMatch ci s rest with
    | some rest' => k (pos + s.length) rest' caps
    | none => none
  | _ + 1, .cls p, pos, rest, caps, k =>
    match rest with
    | c :: rest' => if p c then k (pos + 1) rest' caps else none
    | [] => none
  | fuel + 1, .seq a b, pos, rest, caps, k =>
    reM ci input fuel a pos rest caps fun p' r' c' => reM ci input fuel b p' r' c' k
  | fuel + 1, .alt a b, pos, rest, caps, k =>
    (reM ci input fuel a pos rest caps k) <|> (reM ci input fuel b pos rest caps k)
  | fuel + 1, .rep lo hi r, pos, rest, caps, k =>
    if lo ≠ 0 then
      reM ci input fuel r pos rest caps fun p' r' c' =>
        reM ci input fuel (.rep (lo - 1) (hi.map (· - 1)) r) p' r' c' k
    else if hi = some 0 then k pos rest caps
    else
      (reM ci input fuel r pos rest caps fun p' r' c' =>
        if p' = pos then none
        else reM ci input fuel (.rep 0 (hi.map (· - 1)) r) p' r' c' k) <|>
      k pos rest caps
  | fuel + 1, .repLazy lo hi r, pos, rest, caps, k =>
    if lo ≠ 0 then
      reM ci input fuel r pos rest caps fun p' r' c' =>
        reM ci input fuel (.repLazy (lo - 1) (hi.map (· - 1)) r) p' r' c' k
    else if hi = some 0 then k pos rest caps
    else
      (k pos rest caps) <|>
      reM ci input fuel r pos rest caps fun p' r' c' =>
        if p' = pos then none
        else reM ci input fuel (.repLazy 0 (hi.map (· - 1)) r) p' r' c' k
  | fuel + 1, .group n r, pos, rest, caps, k =>
    reM ci input fuel r pos rest caps fun p' r' c' =>
      k p' r' ((n, rest.take (p' - pos)) :: c')
  | _ + 1, .backref n, pos, rest, caps, k =>
    match capLookup caps n with
    | some t =>
      match litMatch ci t rest with
      | some rest' => k (pos + t.length) rest' caps
      | none => none
    | none => none
  | fuel + 1, .look neg r, pos, rest, caps, k =>
    match reM ci input fuel r pos rest caps (fun p' _ c' => some (p', c')) with
    | some _ => if neg then none else k pos rest caps
    | none => if neg then k pos rest caps else none
  | _ + 1, .lookbehindNot s, pos, rest, caps, k =>
    if endsWithAt ci input pos s then none else k pos rest caps
  | _ + 1, .bound, pos, rest, caps, k =>
    if atWordBoundary input pos rest then k pos rest caps else none
  | _ + 1, .start, pos, rest, caps, k =>
    if pos = 0 then k pos rest caps else none
  | _ + 1, .stop, pos, rest, caps, k =>
    if rest.isEmpty || rest = ['\n'] then k pos rest caps else none

/-- Fuel bound used for every match attempt in this file. -/
def reFuel (input : List Char) : Nat := 4 * input.length + 600

/-- Attempt a match anchored at position `i`; returns the end position and
the captures (CPython `re.match` when `i = 0`). -/
def reMatchAt (ci : Bool) (input : List Char) (r : RE) (i : Nat) :
    Option (Nat × Caps) :=
  reM ci input (reFuel input) r i (input.drop i) [] fun p _ c => some (p, c)

/-- One found match: start, end, captures. -/
structure RMatch where
  mstart : Nat
  mend : Nat
  caps : Caps

/-- Worker for `reFindIter`: try every start position left to right,
skipping over each match (CPython non-overlapping semantics; an empty
match advances one position). -/
def findIterGo (ci : Bool) (input : List Char) (r : RE) :
    Nat → Nat → List Char → List RMatch
  | 0, _, _ => []
  | fuel + 1, pos, rest =>
    match reMatchAt ci input r pos with
    | some (e, caps) =>
      { mstart := pos, mend := e, caps := caps } ::
        (if pos < e then findIterGo ci input r fuel e (input.drop e)
         else match rest with
           | [] => []
           | _ :: rest' => findIterGo ci input r fuel (pos + 1) rest')
    | none =>
      match rest with
      | [] => []
      | _ :: rest' => findIterGo ci input r fuel (pos + 1) rest'

/-- CPython `re.finditer`: non-overlapping matches, leftmost first. -/
def reFindIter (ci : Bool) (r : RE) (input : List Char) : List RMatch :=
  findIterGo ci input r (input.length + 1) 0 input

/-- CPython `re.search`: the first match, scanning start positions left to
right. -/
def reSearch (ci : Bool) (r : RE) (input : List Char) : Option RMatch :=
  match reFindIter ci r input with
  | [] => none
  | m :: _ => some m

/-- `re.search(...) is not None`. -/
def reTest (ci : Bool) (r : RE) (input : List Char) : Bool :=
  (reSearch ci r input).isSome

/-- A replacement template: literal pieces and `\n` group references. -/
inductive TmplItem where
  | lit (s : List Char)
  | ref (n : Nat)

/-- Instantiate a replacement template with a match's captures
(an unmatched group inserts nothing). -/
def tmplApply (tmpl : List TmplItem) (caps : Caps) : List Char :=
  match tmpl with
  | [] => []
  | .lit s :: rest => s ++ tmplApply rest caps
  | .ref n :: rest => (capLookup caps n).getD [] ++ tmplApply rest caps

/-- Splice replacements into `input`: `ms` are disjoint matches in
ascending order, `f` maps a match to its replacement text. -/
def spliceAll (f : RMatch → List Char) (input : List Char) :
    List RMatch → Nat → List Char
  | [], done => input.drop done
  | m :: ms, done =>
    pySlice input done m.mstart ++ f m ++ spliceAll f input ms m.mend

/-- CPython `re.sub` with a template replacement. -/
def reSub (ci : Bool) (r : RE) (tmpl : List TmplItem) (input : List Char) :
    List Char :=
  spliceAll (fun m => tmplApply tmpl m.caps) input (reFindIter ci r input) 0

/-- CPython `re.sub` with a function replacement: the function receives
the matched text, the match start and the captures. -/
def reSubF (ci : Bool) (r : RE)
    (f : List Char → Nat → Caps → List Char) (input : List Char) : List Char :=
  spliceAll (fun m => f (pySlice input m.mstart m.mend) m.mstart m.caps)
    input (reFindIter ci r input) 0

/-! ## Pattern transcriptions from `classes/services.py`

Each definition transcribes one regex literal of the source into `RE`.
For patterns compiled with `re.IGNORECASE` the matcher is called with
`ci = true`; that flag case-folds literals and backreferences, so letter
ranges inside such patterns are transcribed as the case-folded class
(`[A-Z]` under `re.IGNORECASE` accepts any letter). -/

/-- `r?` -/
def RE.opt (r : RE) : RE := .rep 0 (some 1) r

/-- `r+` -/
def RE.plus (r : RE) : RE := .rep 1 none r

/-- `r*` -/
def RE.star0 (r : RE) : RE := .rep 0 none r

/-- An alternation `a|b|…` over a nonempty list, left to right. -/
def RE.alts : List RE → RE
  | [] => .lit []
  | [r] => r
  | r :: rs => .alt r (RE.alts rs)

/-- `.` (no `re.DOTALL` effect is ever observable: no transcribed pattern
uses `.` together with an input where `re.DOTALL` was set). -/
def reDot : RE := .cls (· ≠ '\n')

/-- `\s` -/
def reWs : RE := .cls pyIsSpace

/-- `["\']` -/
def reQuote : RE := .cls (fun c => c = '"' || c = '\'')

/-- `[^"\']` -/
def reNotQuote : RE := .cls (fun c => c ≠ '"' && c ≠ '\'')

/-- services.py:890 `!\[([^\]]*)\]\(data:image/([^;]+);base64,([^)]+)\)` -/
def b64MarkdownPat : RE := .cat [
  .lit (str "!["), .group 1 (.star0 (.cls (· ≠ ']'))), .lit (str "](data:image/"),
  .group 2 (.plus (.cls (· ≠ ';'))), .lit (str ";base64,"),
  .group 3 (.plus (.cls (· ≠ ')'))), .lit (str ")")]

/-- services.py:892
`<img[^>]*src=["\']data:image/([^;]+);base64,([^"\']+)["\'][^>]*>(?:alt=["\']([^"\']*)["\'])?[^>]*/??>` -/
def b64HtmlPat : RE := .cat [
  .lit (str "<img"), .star0 (.cls (· ≠ '>')), .lit (str "src="), reQuote,
  .lit (str "data:image/"), .group 1 (.plus (.cls (· ≠ ';'))),
  .lit (str ";base64,"), .group 2 (.plus reNotQuote), reQuote,
  .star0 (.cls (· ≠ '>')), .lit (str ">"),
  .opt (.cat [.lit (str "alt="), reQuote, .group 3 (.star0 reNotQuote), reQuote]),
  .star0 (.cls (· ≠ '>')), .repLazy 0 (some 1) (.lit (str "/")), .lit (str ">")]

/-- services.py:894
`!\[([^\]]*)\]\(\s*data:image/([^;]+);\s*base64\s*,\s*([^)]+)\s*\)` -/
def b64SpacedPat : RE := .cat [
  .lit (str "!["), .group 1 (.star0 (.cls (· ≠ ']'))), .lit (str "]("),
  .star0 reWs, .lit (str "data:image/"), .group 2 (.plus (.cls (· ≠ ';'))),
  .lit (str ";"), .star0 reWs, .lit (str "base64"), .star0 reWs, .lit (str ","),
  .star0 reWs, .group 3 (.plus (.cls (· ≠ ')'))), .star0 reWs, .lit (str ")")]

/-- services.py:1110 `!\[[^\]]*\]\([^)]*base64[^)]*\)` -/
def cleanupPat1 : RE := .cat [
  .lit (str "!["), .star0 (.cls (· ≠ ']')), .lit (str "]("),
  .star0 (.cls (· ≠ ')')), .lit (str "base64"), .star0 (.cls (· ≠ ')')),
  .lit (str ")")]

/-- services.py:1111 `!\[[^\]]*\]\(data:[^)]+\)` -/
def cleanupPat2 : RE := .cat [
  .lit (str "!["), .star0 (.cls (· ≠ ']')), .lit (str "](data:"),
  .plus (.cls (· ≠ ')')), .lit (str ")")]

/-- services.py:1112 `<img[^>]*src=["\'][^"\']*base64[^"\']*["\'][^>]*>` -/
def cleanupPat3 : RE := .cat [
  .lit (str "<img"), .star0 (.cls (· ≠ '>')), .lit (str "src="), reQuote,
  .star0 reNotQuote, .lit (str "base64"), .star0 reNotQuote, reQuote,
  .star0 (.cls (· ≠ '>')), .lit (str ">")]

/-- services.py:1113 `data:image/[^;,\s]+[;,][^)\s]*` -/
def cleanupPat4 : RE := .cat [
  .lit (str "data:image/"),
  .plus (.cls (fun c => c ≠ ';' && c ≠ ',' && !pyIsSpace c)),
  .cls (fun c => c = ';' || c = ','),
  .star0 (.cls (fun c => c ≠ ')' && !pyIsSpace c))]

/-- services.py:1114 `!\[[^\]]*\]\([^)]{150,}\)` -/
def cleanupPat5 : RE := .cat [
  .lit (str "!["), .star0 (.cls (· ≠ ']')), .lit (str "]("),
  .rep 150 none (.cls (· ≠ ')')), .lit (str ")")]

/-- The `base64_patterns` list of `_remove_remaining_base64_images`. -/
def cleanupPats : List RE :=
  [cleanupPat1, cleanupPat2, cleanupPat3, cleanupPat4, cleanupPat5]

/-- `[A-Za-z0-9+/=]`, the base64 alphabet class of services.py:1127. -/
def isB64Cls (c : Char) : Bool := pyIsAlpha c || pyIsDigit c || c = '+' || c = '/' || c = '='

/-- services.py:1127 `base64,[A-Za-z0-9+/=]{20,}` -/
def suspiciousPat1 : RE := .cat [.lit (str "base64,"), .rep 20 none (.cls isB64Cls)]

/-- services.py:1128 `;base64,[A-Za-z0-9+/=]+` -/
def suspiciousPat2 : RE := .cat [.lit (str ";base64,"), .plus (.cls isB64Cls)]

/-- The `suspicious_patterns` list of `_remove_remaining_base64_images`. -/
def suspiciousPats : List RE := [suspiciousPat1, suspiciousPat2]

/-- services.py:1140 `!\[[^\]]*\]\(\s*\)` -/
def emptyImagePat : RE := .cat [
  .lit (str "!["), .star0 (.cls (· ≠ ']')), .lit (str "]("), .star0 reWs,
  .lit (str ")")]

/-- services.py:1143 `\n\s*\n\s*\n+` -/
def tripleBlankPat : RE := .cat [
  .lit (str "\n"), .star0 reWs, .lit (str "\n"), .star0 reWs,
  .plus (.lit (str "\n"))]

/-- services.py:1144 `^\s*\n+` (no `re.MULTILINE`: `^` is start of string). -/
def leadingBlankPat : RE := .cat [.start, .star0 reWs, .plus (.lit (str "\n"))]

/-- services.py:1145 `\n+\s*$` (no `re.MULTILINE`). -/
def trailingBlankPat : RE := .cat [.plus (.lit (str "\n")), .star0 reWs, .stop]

/-- `\s+` (services.py:935 and 959). -/
def wsRunPat : RE := .plus reWs

/-- services.py:958 `[^\w\s-]` -/
def altCleanPat : RE := .cls (fun c => !pyIsWord c && !pyIsSpace c && c ≠ '-')

/-- services.py:965 `[<>:"/\\|?*]` -/
def fnameCleanPat : RE := .cls (fun c =>
  c = '<' || c = '>' || c = ':' || c = '"' || c = '/' || c = '\\' || c = '|' ||
  c = '?' || c = '*')

/-! ## Python `base64` (standard alphabet, as `base64.b64decode`/`b64encode`
use it).  Decoding models CPython's default non-validating mode on inputs
whose padding, if any, sits at the very end: characters outside the
alphabet are discarded first, and a group length that is not a multiple of
four is a decoding error (`binascii.Error`). -/

/-- Value of a base64 alphabet character. -/
def b64CharVal (c : Char) : Option Nat :=
  if pyIsUpper c then some (c.toNat - 65)
  else if pyIsLower c then some (c.toNat - 97 + 26)
  else if pyIsDigit c then some (c.toNat - 48 + 52)
  else if c = '+' then some 62
  else if c = '/' then some 63
  else none

/-- Character of a 6-bit value. -/
def b64ValChar (n : Nat) : Char :=
  if n < 26 then Char.ofNat (65 + n)
  else if n < 52 then Char.ofNat (97 + n - 26)
  else if n < 62 then Char.ofNat (48 + n - 52)
  else if n = 62 then '+' else '/'

/-- Decode base64 quads (input already filtered to alphabet + padding). -/
def b64DecodeGroups : List Char → Option (List Nat)
  | [] => some []
  | a :: b :: c :: d :: rest => do
    let va ← b64CharVal a
    let vb ← b64CharVal b
    if d = '=' then
      if !rest.isEmpty then none
      else if c = '=' then some [va * 4 + vb / 16]
      else do
        let vc ← b64CharVal c
        some [va * 4 + vb / 16, vb % 16 * 16 + vc / 4]
    else do
      let vc ← b64CharVal c
      let vd ← b64CharVal d
      let bytes ← b64DecodeGroups rest
      some ([va * 4 + vb / 16, vb % 16 * 16 + vc / 4, vc % 4 * 64 + vd] ++ bytes)
  | _ => none

/-- `base64.b64decode` (default `validate=False`): discard foreign
characters, then decode; `none` is `binascii.Error`. -/
def pyB64Decode (s : List Char) : Option (List Nat) :=
  b64DecodeGroups (s.filter (fun c => (b64CharVal c).isSome || c = '='))

/-- `base64.b64encode` over a byte list. -/
def pyB64Encode : List Nat → List Char
  | [] => []
  | [a] => [b64ValChar (a / 4), b64ValChar (a % 4 * 16), '=', '=']
  | [a, b] => [b64ValChar (a / 4), b64ValChar (a % 4 * 16 + b / 16),
               b64ValChar (b % 16 * 4), '=']
  | a :: b :: c :: rest =>
    [b64ValChar (a / 4), b64ValChar (a % 4 * 16 + b / 16),
     b64ValChar (b % 16 * 4 + c / 64), b64ValChar (c % 64)] ++ pyB64Encode rest

/-! ## Pattern transcriptions for `_enhance_heading_detection`
(services.py:20-184).  The `heading_patterns` are used with `re.match` and
no flags (case-sensitive); the `exclusion_patterns` with `re.search` and
`re.IGNORECASE`. -/

/-- `[A-Za-z\s\d\-.,!?()]`, the class shared by heading patterns 4-6. -/
def titleChar (c : Char) : Bool :=
  pyIsAlpha c || pyIsSpace c || pyIsDigit c || c = '-' || c = '.' || c = ',' ||
  c = '!' || c = '?' || c = '(' || c = ')'

/-- services.py:35 `^[A-Z][A-Z\s\d\-]{8,}[A-Z\d]$` -/
def headingPat1 : RE := .cat [.start, .cls pyIsUpper,
  .rep 8 none (.cls (fun c => pyIsUpper c || pyIsSpace c || pyIsDigit c || c = '-')),
  .cls (fun c => pyIsUpper c || pyIsDigit c), .stop]

/-- services.py:37 `^\d+(?:\.\d+)*\.?\s+[A-Z][A-Za-z\s]{3,}$` -/
def headingPat2 : RE := .cat [.start, .plus (.cls pyIsDigit),
  .star0 (.cat [.lit (str "."), .plus (.cls pyIsDigit)]), .opt (.lit (str ".")),
  .plus reWs, .cls pyIsUpper,
  .rep 3 none (.cls (fun c => pyIsAlpha c || pyIsSpace c)), .stop]

/-- services.py:39 `^[IVX]+\.\s+[A-Z][A-Za-z\s]{3,}$` -/
def headingPat3 : RE := .cat [.start,
  .plus (.cls (fun c => c = 'I' || c = 'V' || c = 'X')), .lit (str "."),
  .plus reWs, .cls pyIsUpper,
  .rep 3 none (.cls (fun c => pyIsAlpha c || pyIsSpace c)), .stop]

/-- services.py:41 `^\s{4,}[A-Z][A-Za-z\s\d\-.,!?()]{8,}\s{4,}$` -/
def headingPat4 : RE := .cat [.start, .rep 4 none reWs, .cls pyIsUpper,
  .rep 8 none (.cls titleChar), .rep 4 none reWs, .stop]

/-- services.py:43 `^\*\*([A-Z][A-Za-z\s\d\-.,!?()]{5,})\*\*$` -/
def headingPat5 : RE := .cat [.start, .lit (str "**"),
  .group 1 (.cat [.cls pyIsUpper, .rep 5 none (.cls titleChar)]),
  .lit (str "**"), .stop]

/-- services.py:45 `^[A-Z][A-Za-z\s\d\-.,!?()]{5,}$(?=\n[-=_]{4,})`
(the lookahead needs a newline *after* the `$` position, so this can never
match; it is transcribed verbatim anyway). -/
def headingPat6 : RE := .cat [.start, .cls pyIsUpper, .rep 5 none (.cls titleChar),
  .stop, .look false (.cat [.lit (str "\n"),
    .rep 4 none (.cls (fun c => c = '-' || c = '=' || c = '_'))])]

/-- The `heading_patterns` list, in source order. -/
def headingPats : List RE :=
  [headingPat1, headingPat2, headingPat3, headingPat4, headingPat5, headingPat6]

/-- An optional-dot honorific alternative such as `Prof\.?`. -/
def honorific (w : String) : RE := .cat [.lit (str w), .opt (.lit (str "."))]

/-- services.py:51 `^(Prof\.?|Dr\.?|Mr\.?|Ms\.?|Mrs\.?)\s+` -/
def exclusionPat1 : RE := .cat [.start,
  .group 1 (RE.alts [honorific "Prof", honorific "Dr", honorific "Mr",
    honorific "Ms", honorific "Mrs"]), .plus reWs]

/-- services.py:53 `.*@.*\..*` -/
def exclusionPat2 : RE := .cat [.star0 reDot, .lit (str "@"), .star0 reDot,
  .lit (str "."), .star0 reDot]

/-- services.py:55 `.*(https?://|www\.|\.com|\.org|\.net)` -/
def exclusionPat3 : RE := .cat [.star0 reDot, .group 1 (RE.alts [
  .cat [.lit (str "http"), .opt (.lit (str "s")), .lit (str "://")],
  .lit (str "www."), .lit (str ".com"), .lit (str ".org"), .lit (str ".net")])]

/-- services.py:57 `^(Phone|Tel|Email|Fax|Address|Office):?\s*` -/
def exclusionPat4 : RE := .cat [.start,
  .group 1 (RE.alts ([ "Phone", "Tel", "Email", "Fax", "Address",
    "Office"].map (fun w => RE.lit (str w)))),
  .opt (.lit (str ":")), .star0 reWs]

/-- services.py:59 `^(Course|Class|Section|Semester|Room|Time|Day|Location)\s*:` -/
def exclusionPat5 : RE := .cat [.start,
  .group 1 (RE.alts ([ "Course", "Class", "Section", "Semester", "Room",
    "Time", "Day", "Location"].map (fun w => RE.lit (str w)))),
  .star0 reWs, .lit (str ":")]

/-- services.py:61 `^[^:]{1,30}:\s*` -/
def exclusionPat6 : RE := .cat [.start, .rep 1 (some 30) (.cls (· ≠ ':')),
  .lit (str ":"), .star0 reWs]

/-- services.py:63
`.*(phone|email|office|room|building|semester|lecture|tutorial|lab).*` -/
def exclusionPat7 : RE := .cat [.star0 reDot,
  .group 1 (RE.alts ([ "phone", "email", "office", "room", "building",
    "semester", "lecture", "tutorial", "lab"].map (fun w => RE.lit (str w)))),
  .star0 reDot]

/-- services.py:65 `.*(zoom|meeting|conference).*` -/
def exclusionPat8 : RE := .cat [.star0 reDot,
  .group 1 (RE.alts ([ "zoom", "meeting", "conference"].map
    (fun w => RE.lit (str w)))), .star0 reDot]

/-- services.py:67 `^[A-Z][a-z]+\s+\d{4}` (under `re.IGNORECASE` the letter
ranges accept any letter). -/
def exclusionPat9 : RE := .cat [.start, .cls pyIsAlpha, .plus (.cls pyIsAlpha),
  .plus reWs, .rep 4 (some 4) (.cls pyIsDigit)]

/-- services.py:68 `^\d+:\d+\s*(AM|PM)` -/
def exclusionPat10 : RE := .cat [.start, .plus (.cls pyIsDigit), .lit (str ":"),
  .plus (.cls pyIsDigit), .star0 reWs,
  .group 1 (.alt (.lit (str "AM")) (.lit (str "PM")))]

/-- services.py:69 `^[A-Z][a-z]+,\s*\d` (case-folded letter ranges). -/
def exclusionPat11 : RE := .cat [.start, .cls pyIsAlpha, .plus (.cls pyIsAlpha),
  .lit (str ","), .star0 reWs, .cls pyIsDigit]

/-- The `exclusion_patterns` list, in source order. -/
def exclusionPats : List RE :=
  [exclusionPat1, exclusionPat2, exclusionPat3, exclusionPat4, exclusionPat5,
   exclusionPat6, exclusionPat7, exclusionPat8, exclusionPat9, exclusionPat10,
   exclusionPat11]

/-- services.py:110 `^\*\*([^*]+)\*\*$` (bold heading-text extraction). -/
def boldExtractPat : RE := .cat [.start, .lit (str "**"),
  .group 1 (.plus (.cls (· ≠ '*'))), .lit (str "**"), .stop]

/-- services.py:115 `^\d+(?:\.\d+)*\.?\s+` (numbering-prefix strip). -/
def numberedStripPat : RE := .cat [.start, .plus (.cls pyIsDigit),
  .star0 (.cat [.lit (str "."), .plus (.cls pyIsDigit)]), .opt (.lit (str ".")),
  .plus reWs]

/-- services.py:117 `^[IVX]+\.\s+` (roman-numeral-prefix strip). -/
def romanStripPat : RE := .cat [.start,
  .plus (.cls (fun c => c = 'I' || c = 'V' || c = 'X')), .lit (str "."),
  .plus reWs]

/-- services.py:137
`\b(the|a|an|and|or|but|in|on|at|to|for|of|with|by)\b` (searched on the
lower-cased line). -/
def stopWordPat : RE := .cat [.bound,
  .group 1 (RE.alts ([ "the", "a", "an", "and", "or", "but", "in", "on",
    "at", "to", "for", "of", "with", "by"].map (fun w => RE.lit (str w)))),
  .bound]

/-- services.py:138 `\d{4}` -/
def yearPat : RE := .rep 4 (some 4) (.cls pyIsDigit)

/-- services.py:139
`(monday|tuesday|wednesday|thursday|friday|saturday|sunday)` (searched on
the lower-cased line). -/
def dayPat : RE := .group 1 (RE.alts ([ "monday", "tuesday", "wednesday",
  "thursday", "friday", "saturday", "sunday"].map (fun w => RE.lit (str w))))

/-- services.py:150 `^[A-Z][A-Za-z]+(?:\s+[A-Z][A-Za-z]+)*$` -/
def academicTitlePat : RE := .cat [.start, .cls pyIsUpper, .plus (.cls pyIsAlpha),
  .star0 (.cat [.plus reWs, .cls pyIsUpper, .plus (.cls pyIsAlpha)]), .stop]

/-- services.py:182 `\n# ([^\n]+)\n# \1\n` (adjacent-duplicate-heading
collapse), substituted with `\n# \1\n`. -/
def dupHeadingPat : RE := .cat [.lit (str "\n# "),
  .group 1 (.plus (.cls (· ≠ '\n'))), .lit (str "\n# "), .backref 1,
  .lit (str "\n")]

/-! ## `_enhance_heading_detection` (services.py:20-184) -/

/-- services.py:91-94: does some exclusion pattern `re.search` the line
(`re.IGNORECASE`)? -/
def isExcludedLine (line : List Char) : Bool :=
  exclusionPats.any (fun p => reTest true p line)

/-- services.py:105-106: index (1-based) of the first heading pattern that
`re.match`es the stripped line. -/
def firstHeadingPat (line : List Char) : Option Nat :=
  let rec go : List RE → Nat → Option Nat
    | [], _ => none
    | p :: ps, idx =>
      if (reMatchAt false line p 0).isSome then some idx else go ps (idx + 1)
  go headingPats 1

/-- services.py:108-120: clean heading text for the matched pattern
(pattern 5 extracts the bold group, 2 and 3 strip the numbering prefix,
4 re-strips the already-stripped line). -/
def headingTextFor (patIdx : Option Nat) (line : List Char) : List Char :=
  match patIdx with
  | some 5 =>
    match reMatchAt false line boldExtractPat 0 with
    | some (_, caps) => (capLookup caps 1).getD line
    | none => line
  | some 2 => reSub false numberedStripPat [] line
  | some 3 => reSub false romanStripPat [] line
  | some 4 => pyStrip line
  | _ => line

/-- services.py:151-153: the allow-list of known academic section titles. -/
def knownSectionTitles : List (List Char) :=
  [str "course information", str "course description", str "learning outcomes",
   str "required texts", str "course objectives", str "grading scheme",
   str "assignment details", str "tutorial information", str "office hours"]

/-- services.py:129-139: the standalone-title conjunction (everything up to
the per-word capitalization check). -/
def standaloneCond (line prevLine nextLine : List Char) : Bool :=
  line.length < 60 &&
  2 ≤ (pySplitWs line).length && (pySplitWs line).length ≤ 8 &&
  pyIsUpper ((line.headD ' ')) &&
  line.getLast? ≠ some '.' &&
  line.getLast? ≠ some ',' &&
  line.getLast? ≠ some ':' &&
  (nextLine.isEmpty || !pyIsLower (nextLine.headD ' ')) &&
  prevLine.isEmpty &&
  !reTest false stopWordPat (pyLower line) &&
  !reTest false yearPat line &&
  !reTest false dayPat (pyLower line)

/-- services.py:142-143: every word starts upper case or is a listed
connective. -/
def allWordsTitleCase (line : List Char) : Bool :=
  (pySplitWs line).all fun w =>
    pyIsUpper (w.headD ' ') ||
    pyLower w ∈ [str "of", str "the", str "and", str "in", str "to", str "for"]

/-- services.py:147-153: the known-section-title special case. -/
def academicCond (line prevLine : List Char) : Bool :=
  2 ≤ (pySplitWs line).length && (pySplitWs line).length ≤ 4 &&
  pyIsUpper (line.headD ' ') &&
  prevLine.isEmpty &&
  (reMatchAt false line academicTitlePat 0).isSome &&
  pyLower line ∈ knownSectionTitles

/-- services.py:157-163: underlined-heading test against the *stripped*
next line. -/
def underlineOk (line nextLine : List Char) : Bool :=
  !nextLine.isEmpty &&
  4 ≤ nextLine.length &&
  nextLine.all (fun c => c = '-' || c = '=' || c = '_') &&
  max nextLine.length line.length - min nextLine.length line.length ≤ 5 &&
  5 ≤ line.length

/-- Outcome of one iteration of the `while` loop: keep the original line,
emit a heading, or emit a heading and also consume the following
(underline) line. -/
inductive LineStep where
  | plain
  | heading (t : List Char)
  | headingSkip (t : List Char)

/-- One iteration of the `while i < len(lines)` loop of
`_enhance_heading_detection` (services.py:72-176), without the recursion:
`orig` is `lines[i]`, `hasNext` is `i + 1 < len(lines)` and `nextOrig` is
`lines[i + 1]` (or `""`). -/
def enhanceStep (lines : List (List Char)) (i : Nat) (orig : List Char)
    (hasNext : Bool) (nextOrig : List Char) : LineStep :=
  let line := pyStrip orig
  if (str "#").isPrefixOf line then .plain
  else if line.isEmpty then .plain
  else if isExcludedLine line then .plain
  else
    let patIdx := firstHeadingPat line
    let headingText := headingTextFor patIdx line
    let nextLine := if hasNext then pyStrip nextOrig else []
    let prevLine := if i = 0 then [] else pyStrip ((lines.get? (i - 1)).getD [])
    let isHeading :=
      if patIdx.isSome then true
      else if standaloneCond line prevLine nextLine then allWordsTitleCase line
      else academicCond line prevLine
    if isHeading then .heading (str "# " ++ headingText)
    else if hasNext && underlineOk line (pyStrip nextOrig) then
      .headingSkip (str "# " ++ headingText)
    else .plain

/-- The `while i < len(lines)` loop of `_enhance_heading_detection`: the
first argument is the full line list (for `lines[i-1]` lookups), the
second the remaining suffix, the third the index `i`. -/
def enhanceGo (lines : List (List Char)) : List (List Char) → Nat → List (List Char)
  | [], _ => []
  | [orig], i =>
    match enhanceStep lines i orig false [] with
    | .plain => [orig]
    | .heading t => [t]
    | .headingSkip t => [t]
  | orig :: next :: rest, i =>
    match enhanceStep lines i orig true next with
    | .plain => orig :: enhanceGo lines (next :: rest) (i + 1)
    | .heading t => t :: enhanceGo lines (next :: rest) (i + 1)
    | .headingSkip t => t :: enhanceGo lines rest (i + 2)

/-- services.py:20-184 `_enhance_heading_detection` (its `file_path`
parameter is unused by the body and omitted). -/
def enhance_heading_detection (content : List Char) : List Char :=
  if content.isEmpty || (pyStrip content).isEmpty then content
  else
    let lines := pySplitNl content
    let processed := enhanceGo lines lines 0
    reSub false dupHeadingPat [.lit (str "\n# "), .ref 1, .lit (str "\n")]
      (pyJoinNl processed)

/-! ## Path suffix (pathlib `Path(p).suffix`) -/

/-- `pathlib.PurePath.suffix`: the final component's extension including
the dot; empty when the last dot is first or last in the name. -/
def pathSuffix (p : List Char) : List Char :=
  let name := (p.reverse.takeWhile (· ≠ '/')).reverse
  let afterDot := (name.reverse.takeWhile (· ≠ '.')).length
  if afterDot < name.length then
    let i := name.length - afterDot - 1
    if 0 < i && afterDot ≥ 1 then name.drop i else []
  else []

/-- `Path(p).suffix.lower()`. -/
def pathSuffixLower (p : List Char) : List Char := pyLower (pathSuffix p)

/-- Python truthiness of `file_path and Path(file_path).suffix.lower() == s`. -/
def hasSuffix (fp : Option (List Char)) (s : List Char) : Bool :=
  match fp with
  | none => false
  | some p => !p.isEmpty && pathSuffixLower p = s

/-! ## `_add_page_numbers_to_markdown` (services.py:409-512) -/

/-- Decimal digits of a number (worker with fuel). -/
def natDigitsGo : Nat → Nat → List Char → List Char
  | 0, _, acc => acc
  | _ + 1, 0, acc => acc
  | fuel + 1, n, acc =>
    natDigitsGo fuel (n / 10) (Char.ofNat (48 + n % 10) :: acc)

/-- Python `str(n)` for a natural. -/
def natToStr (n : Nat) : List Char :=
  if n = 0 then str "0" else natDigitsGo (n + 1) n []

/-- `f"## Page {n}"` -/
def pageMarker (n : Nat) : List Char := str "## Page " ++ natToStr n

/-- Python `s.split(sep)` for a one-character separator. -/
def pySplitChar (sep : Char) (s : List Char) : List (List Char) :=
  match s with
  | [] => [[]]
  | c :: rest =>
    let tail := pySplitChar sep rest
    if c = sep then [] :: tail
    else
      match tail with
      | [] => [[c]]
      | l :: ls => (c :: l) :: ls

/-- Python `sep.join(parts)`. -/
def pyJoinWith (sep : List Char) : List (List Char) → List Char
  | [] => []
  | [l] => l
  | l :: ls => l ++ sep ++ pyJoinWith sep ls

/-- The PDF branch loop of `_add_page_numbers_to_markdown`
(services.py:438-471): walk the lines carrying the index, the
length-since-break counter and the current page number. -/
def pdfPageGo (lines : List (List Char)) :
    List (List Char) → Nat → Nat → Nat → List (List Char)
  | [], _, _, _ => []
  | line :: rest, i, lineCount, page =>
    let lineCount := lineCount + 1
    let break1 :=
      match rest with
      | l1 :: l2 :: _ =>
        (pyStrip line).isEmpty && (pyStrip l1).isEmpty &&
        !(pyStrip l2).isEmpty && lineCount > 20
      | _ => false
    let break2 :=
      (str "#").isPrefixOf (pyStrip line) && lineCount > 30 && i > 0 &&
      (pyStrip ((lines.get? (i - 1)).getD [])).isEmpty
    let break3 := lineCount > 50 && (pyStrip line).isEmpty
    if break1 || break2 || break3 then
      line :: [] :: str "---" :: [] :: pageMarker (page + 1) :: [] ::
        pdfPageGo lines rest (i + 1) 0 (page + 1)
    else
      line :: pdfPageGo lines rest (i + 1) lineCount page

/-- The long-document branch loop of `_add_page_numbers_to_markdown`
(services.py:496-508). -/
def longDocGo : List (List Char) → Nat → Nat → List (List Char)
  | [], _, _ => []
  | line :: rest, lineCount, page =>
    let lineCount := lineCount + 1
    if lineCount > 80 && (pyStrip line).isEmpty then
      line :: [] :: str "---" :: [] :: pageMarker (page + 1) :: [] ::
        longDocGo rest 0 (page + 1)
    else
      line :: longDocGo rest lineCount page

/-- The form-feed branch (services.py:478-484): number the split pages by
their original index and keep only the nonempty ones. -/
def formFeedPages (pages : List (List Char)) (i : Nat) : List (List Char) :=
  match pages with
  | [] => []
  | p :: rest =>
    if (pyStrip p).isEmpty then formFeedPages rest (i + 1)
    else (pageMarker (i + 1) ++ str "\n\n" ++ pyStrip p) :: formFeedPages rest (i + 1)

/-- services.py:409-512 `_add_page_numbers_to_markdown` (the
`page_break_patterns` list the source builds at 418-423 is never used and
has no counterpart here). -/
def add_page_numbers_to_markdown (content : List Char)
    (file_path : Option (List Char)) (create_pages : Bool) : List Char :=
  if content.isEmpty || !create_pages then content
  else
    let is_pdf := hasSuffix file_path (str ".pdf")
    if is_pdf then
      let lines := pySplitNl content
      pyJoinNl (pageMarker 1 :: [] :: pdfPageGo lines lines 0 0 1)
    else if containsSub content (str "\x0c") then
      pyJoinWith (str "\n\n---\n\n") (formFeedPages (pySplitChar '\x0c' content) 0)
    else
      let lines := pySplitNl content
      if lines.length > 100 then
        pyJoinNl (pageMarker 1 :: [] :: longDocGo lines 0 1)
      else content

/-! ## `_convert_hyperlinks_to_markdown` (services.py:356-407) -/

/-- services.py:363 `<a\s+[^>]*href=["\']([^"\']+)["\'][^>]*>([^<]*)</a>`
(`re.IGNORECASE`). -/
def htmlLinkPat : RE := .cat [
  .lit (str "<a"), .plus reWs, .star0 (.cls (· ≠ '>')), .lit (str "href="),
  reQuote, .group 1 (.plus reNotQuote), reQuote, .star0 (.cls (· ≠ '>')),
  .lit (str ">"), .group 2 (.star0 (.cls (· ≠ '<'))), .lit (str "</a>")]

/-- The URL body class of services.py:368:
`[\w\-._~:/?#[\]@!$&\'()*+,;=]`. -/
def urlBodyChar (c : Char) : Bool :=
  pyIsWord c || c = '-' || c = '.' || c = '_' || c = '~' || c = ':' || c = '/' ||
  c = '?' || c = '#' || c = '[' || c = ']' || c = '@' || c = '!' || c = '$' ||
  c = '&' || c = '\'' || c = '(' || c = ')' || c = '*' || c = '+' || c = ',' ||
  c = ';' || c = '='

/-- services.py:368
`(?<!\[)(?<!\()(?<!\]\()(?:https?://|www\.)[\w\-._~:/?#[\]@!$&\'()*+,;=]+(?!\))` -/
def urlPat : RE := .cat [
  .lookbehindNot (str "["), .lookbehindNot (str "("), .lookbehindNot (str "]("),
  .alt (.cat [.lit (str "http"), .opt (.lit (str "s")), .lit (str "://")])
       (.lit (str "www.")),
  .plus (.cls urlBodyChar), .look true (.lit (str ")"))]

/-- services.py:390
`(?<!\[)(?<!\()(?<!\]\()[a-zA-Z0-9._%+-]+@[a-zA-Z0-9.-]+\.[a-zA-Z]{2,}(?!\))` -/
def emailPat : RE := .cat [
  .lookbehindNot (str "["), .lookbehindNot (str "("), .lookbehindNot (str "]("),
  .plus (.cls (fun c => pyIsAlpha c || pyIsDigit c || c = '.' || c = '_' ||
    c = '%' || c = '+' || c = '-')),
  .lit (str "@"),
  .plus (.cls (fun c => pyIsAlpha c || pyIsDigit c || c = '.' || c = '-')),
  .lit (str "."), .rep 2 none (.cls pyIsAlpha), .look true (.lit (str ")"))]

/-- services.py:405 `\[([^\]]*)\]\(https?://https?://([^)]*)\)` -/
def protoFixPat : RE := .cat [
  .lit (str "["), .group 1 (.star0 (.cls (· ≠ ']'))), .lit (str "]("),
  .lit (str "http"), .opt (.lit (str "s")), .lit (str "://"),
  .lit (str "http"), .opt (.lit (str "s")), .lit (str "://"),
  .group 2 (.star0 (.cls (· ≠ ')'))), .lit (str ")")]

/-- services.py:370-384 `url_replacer` (closes over the content the sub is
scanning). -/
def urlReplacer (content : List Char) (matched : List Char) (s : Nat) : List Char :=
  let before10 := pySlice content (s - 10) s
  if containsSub before10 (str "](") then matched
  else
    let url := if (str "www.").isPrefixOf matched
      then str "http://" ++ matched else matched
    str "[" ++ url ++ str "](" ++ url ++ str ")"

/-- services.py:392-399 `email_replacer`. -/
def emailReplacer (content : List Char) (matched : List Char) (s : Nat) : List Char :=
  let before := pySlice content (s - 10) s
  if containsSub before (str "](") then matched
  else str "[" ++ matched ++ str "](mailto:" ++ matched ++ str ")"

/-- services.py:356-407 `_convert_hyperlinks_to_markdown`. -/
def convert_hyperlinks_to_markdown (content : List Char) : List Char :=
  if content.isEmpty then content
  else
    let content := reSub true htmlLinkPat
      [.lit (str "["), .ref 2, .lit (str "]("), .ref 1, .lit (str ")")] content
    let content := reSubF false urlPat
      (fun m s _ => urlReplacer content m s) content
    let content := reSubF false emailPat
      (fun m s _ => emailReplacer content m s) content
    reSub false protoFixPat
      [.lit (str "["), .ref 1, .lit (str "](https://"), .ref 2, .lit (str ")")]
      content

/-! ## `_remove_remaining_base64_images` (services.py:1097-1148) -/

/-- The source's reversed-match removal loop (services.py:1118-1123):
matches found on the current content are spliced out from last to first. -/
def removeRevLoop (c : List Char) : List RMatch → List Char
  | [] => c
  | m :: ms => removeRevLoop (c.take m.mstart ++ c.drop m.mend) ms

/-- One `for pattern in …` pass: find the pattern's matches on the current
content and splice them out in reverse order. -/
def removePass (ci : Bool) (c : List Char) (pats : List RE) : List Char :=
  pats.foldl (fun c p => removeRevLoop c ((reFindIter ci p c).reverse)) c

/-- services.py:1097-1148 `_remove_remaining_base64_images`. -/
def remove_remaining_base64_images (content : List Char) : List Char :=
  if content.isEmpty then content
  else
    let content := removePass true content cleanupPats
    let content := removePass true content suspiciousPats
    let content := reSub false emptyImagePat [] content
    let content := reSub false tripleBlankPat [.lit (str "\n\n")] content
    let content := reSub false leadingBlankPat [] content
    let content := reSub false trailingBlankPat [.lit (str "\n")] content
    pyStrip content

/-! ## Data model (`classes/models.py` `ImageInfo`)

`position_x`/`position_y` are floats in the source; they are modelled as
integers here (the pipeline only compares them and substitutes `0` for
`None`, and no claim depends on fractional coordinates). -/

structure ImageInfo where
  filename : List Char
  url : List Char
  width : Option Nat := none
  height : Option Nat := none
  page_number : Option Nat := none
  position_x : Option Int := none
  position_y : Option Int := none
  position_in_content : Option Nat := none
  content_context : Option (List Char) := none
deriving DecidableEq, Repr

/-! ## `_convert_base64_images_to_files` (services.py:875-1094)

The filesystem effects are made explicit: `uids` supplies the random
8-character suffix for each successive `_create_document_folder` call, and
saved files are returned as `(folder/filename, bytes)` pairs in write
order.  PIL dimension probing (services.py:985-990) is external I/O and is
modelled as returning no dimensions. -/

/-- Python `str.isalnum` (ASCII). -/
def pyIsAlnum (c : Char) : Bool := pyIsAlpha c || pyIsDigit c

/-- `ImageExtractor._create_document_folder` name computation
(image_extractor.py:76-85): keep alphanumerics, spaces, hyphens and
underscores, strip trailing whitespace, lower-case, then map spaces and
hyphens to underscores; append `_`+`uid`. -/
def documentFolderName (document_name uid : List Char) : List Char :=
  let safe := (((document_name.filter
      (fun c => pyIsAlnum c || c = ' ' || c = '-' || c = '_')).reverse.dropWhile
        pyIsSpace).reverse)
  let safe := (pyLower safe).map (fun c => if c = ' ' || c = '-' then '_' else c)
  safe ++ str "_" ++ uid

/-- One collected match: the index of the pattern that produced it and the
match itself (services.py:897-903). -/
structure B64Match where
  patIdx : Nat
  m : RMatch

/-- Result of `_convert_base64_images_to_files`: the updated content, the
created `ImageInfo` records, and the files written (path, bytes). -/
structure B64Result where
  content : List Char
  images : List ImageInfo
  writes : List (List Char × List Nat)
deriving DecidableEq, Repr

/-- services.py:922-932: alt text, image type and raw payload by pattern
index (`or`-defaults apply when a group is absent or empty). -/
def b64MatchFields (patIdx matchIdx : Nat) (caps : Caps) :
    List Char × List Char × List Char :=
  let defaultAlt := str "image_" ++ natToStr (matchIdx + 1)
  let orDefault : Option (List Char) → List Char := fun g =>
    match g with
    | some t => if t.isEmpty then defaultAlt else t
    | none => defaultAlt
  if patIdx = 1 then
    (orDefault (capLookup caps 3), (capLookup caps 1).getD [],
     (capLookup caps 2).getD [])
  else
    (orDefault (capLookup caps 1), (capLookup caps 2).getD [],
     (capLookup caps 3).getD [])

/-- services.py:1004-1011 worker: the index at which the running
character count first passes `match_start`. -/
def lineNumberFind : List (List Char) → Nat → Nat → Option Nat
  | [], _, _ => none
  | line :: rest, charCount, matchStart =>
    if charCount + line.length + 1 > matchStart then some 0
    else (lineNumberFind rest (charCount + line.length + 1) matchStart).map (· + 1)

/-- services.py:1004-1011: the line number holding byte offset
`match_start` (`line_number` keeps its initial `0` when the loop never
breaks). -/
def lineNumberOf (lines : List (List Char)) (charCount matchStart : Nat) : Nat :=
  (lineNumberFind lines charCount matchStart).getD 0

/-- services.py:1022-1031: index of the first substantial content line
(nonempty, not a heading or image line, containing a period, more than ten
words). -/
def firstContentLine : List (List Char) → Nat → Option Nat
  | [], _ => none
  | line :: rest, idx =>
    let s := pyStrip line
    if !s.isEmpty && !((str "#").isPrefixOf s) && !((str "!").isPrefixOf s) &&
        containsSub s (str ".") && (pySplitWs s).length > 10 then some idx
    else firstContentLine rest (idx + 1)

/-- services.py:1013-1044: is the match at `lineNumber` in the header
region?  Method 1: within the first five lines; method 2: before the first
substantial content line (`if first_content_line` is falsy for index 0);
method 3: within two lines of a heading. -/
def isInHeader (lines : List (List Char)) (lineNumber : Nat) : Bool :=
  let m1 := lineNumber < 5
  let m2 :=
    if m1 then true
    else
      match firstContentLine lines 0 with
      | some fcl => fcl ≠ 0 && lineNumber < fcl
      | none => false
  if m2 then true
  else if lineNumber > 0 then
    (List.range' (lineNumber - 2) (min (lines.length) (lineNumber + 3) -
        (lineNumber - 2))).any
      (fun j => (str "#").isPrefixOf (pyStrip ((lines.get? j).getD [])))
  else false

/-- State threaded through the match-processing loop of
`_convert_base64_images_to_files`: the content being rewritten, the
created records, the header-staged records, the writes, and the number of
`_create_document_folder` calls so far. -/
structure B64State where
  content : List Char
  images : List ImageInfo
  headerImages : List ImageInfo
  writes : List (List Char × List Nat)
  folderCalls : Nat

/-- services.py:918-1067: process one collected match. -/
def b64ProcessMatch (document_name base_url : List Char)
    (uids : Nat → List Char) (lines : List (List Char)) (st : B64State)
    (matchIdx : Nat) (bm : B64Match) : B64State :=
  let (altText, imageType, rawData) := b64MatchFields bm.patIdx matchIdx bm.m.caps
  let base64Data := reSub false wsRunPat [] rawData
  if base64Data.length < 10 then st
  else
    match pyB64Decode base64Data with
    | none =>
      { st with content := st.content.take bm.m.mstart ++ st.content.drop bm.m.mend }
    | some imageData =>
      if imageData.length < 100 then
        { st with content := st.content.take bm.m.mstart ++ st.content.drop bm.m.mend }
      else
        let cleanAlt := reSub false wsRunPat [.lit (str "_")]
          (reSub false altCleanPat [] (pyStrip altText))
        let cleanAlt := if cleanAlt.isEmpty || cleanAlt = str "_"
          then str "image_" ++ natToStr (matchIdx + 1) else cleanAlt
        let filename := cleanAlt ++ str "." ++ imageType
        let filename := reSub false fnameCleanPat [.lit (str "_")] filename
        let folderName := documentFolderName document_name (uids st.folderCalls)
        let writes := st.writes ++ [(folderName ++ str "/" ++ filename, imageData)]
        if imageData.length = 0 then
          { st with
            content := st.content.take bm.m.mstart ++ st.content.drop bm.m.mend,
            writes := writes, folderCalls := st.folderCalls + 1 }
        else
          let url := base_url ++ str "/images/" ++ folderName ++ str "/" ++ filename
          let info : ImageInfo := { filename := filename, url := url }
          let lineNumber := lineNumberOf lines 0 bm.m.mstart
          let header := isInHeader lines lineNumber
          let replacement := if header then []
            else str "![" ++ altText ++ str "](" ++ url ++ str ")"
          { content := st.content.take bm.m.mstart ++ replacement ++
              st.content.drop bm.m.mend,
            images := st.images ++ [info],
            headerImages := st.headerImages ++ (if header then [info] else []),
            writes := writes,
            folderCalls := st.folderCalls + 1 }

/-- Loop over the sorted matches with their enumeration index. -/
def b64ProcessAll (document_name base_url : List Char) (uids : Nat → List Char)
    (lines : List (List Char)) : B64State → Nat → List B64Match → B64State
  | st, _, [] => st
  | st, idx, bm :: rest =>
    b64ProcessAll document_name base_url uids lines
      (b64ProcessMatch document_name base_url uids lines st idx bm) (idx + 1) rest

/-- services.py:1069-1092: move header-staged images to the top (after a
leading heading and its following blank lines, if any). -/
def placeHeaderImages (content : List Char) (headerImages : List ImageInfo) :
    List Char :=
  if headerImages.isEmpty then content
  else
    let lines := pySplitNl content
    let insertPos :=
      match lines with
      | first :: restLines =>
        if (str "#").isPrefixOf (pyStrip first) then
          1 + (restLines.takeWhile (fun l => (pyStrip l).isEmpty)).length
        else 0
      | [] => 0
    let headerSection := headerImages.foldr
      (fun img acc => (str "![" ++ img.filename ++ str "](" ++ img.url ++ str ")")
        :: [] :: acc) []
    pyJoinNl (lines.take insertPos ++ headerSection ++ lines.drop insertPos)

/-- services.py:875-1094 `_convert_base64_images_to_files`. -/
def convert_base64_images_to_files (content document_name : List Char)
    (base_url : List Char) (uids : Nat → List Char) : B64Result :=
  if content.isEmpty then
    { content := content, images := [], writes := [] }
  else
    let allMatches :=
      (reFindIter true b64MarkdownPat content).map (fun m => B64Match.mk 0 m) ++
      (reFindIter true b64HtmlPat content).map (fun m => B64Match.mk 1 m) ++
      (reFindIter true b64SpacedPat content).map (fun m => B64Match.mk 2 m)
    if allMatches.isEmpty then
      { content := content, images := [], writes := [] }
    else
      let sorted := allMatches.insertionSort
        (fun a b => b.m.mstart ≤ a.m.mstart)
      let lines := pySplitNl content
      let st0 : B64State :=
        { content := content, images := [], headerImages := [], writes := [],
          folderCalls := 0 }
      let st := b64ProcessAll document_name base_url uids lines st0 0 sorted
      { content := placeHeaderImages st.content st.headerImages,
        images := st.images, writes := st.writes }

/-! ## Image placement (`services.py:526-874`) -/

/-- The inline Markdown reference the placement code emits for an image:
`f"![{image.filename}]({image.url})"`. -/
def imageLine (img : ImageInfo) : List Char :=
  str "![" ++ img.filename ++ str "](" ++ img.url ++ str ")"

/-- services.py:602-620 `_is_page_break_indicator`. -/
def is_page_break_indicator (line : List Char) (lines : List (List Char))
    (line_index : Nat) : Bool :=
  let s := pyStrip line
  if [str "page ", str "---", str "===", str "chapter ", str "section "].any
      (fun ind => containsSub (pyLower s) ind) then true
  else
    s.isEmpty && line_index > 0 && line_index < lines.length - 1 &&
    (pyStrip ((lines.get? (line_index - 1)).getD [])).isEmpty &&
    !(pyStrip ((lines.get? (line_index + 1)).getD [])).isEmpty

/-- services.py:622-644 `_should_place_image_here`.  The float comparison
`match_ratio > 0.3` is modelled as the exact rational comparison
`10 * matches > 3 * total`, which agrees with the double-precision
computation for the small word counts that arise here. -/
def should_place_image_here (_line : List Char) (image : ImageInfo)
    (lines : List (List Char)) (line_index : Nat) : Bool :=
  match image.content_context with
  | none => false
  | some ctx =>
    if ctx.isEmpty then false
    else
      let start_idx := line_index - 3
      let end_idx := min lines.length (line_index + 3 + 1)
      let surrounding := pyLower
        (pyJoinWith (str " ") (pySlice lines start_idx end_idx))
      let ws := pySplitWs (pyLower ctx)
      let hits := (ws.filter
        (fun w => w.length > 3 && containsSub surrounding w)).length
      if ws.isEmpty then false
      else 10 * hits > 3 * ws.length

/-- `page_number or 1` (services.py:544): `None` and `0` give `1`. -/
def pageKeyOf (img : ImageInfo) : Nat :=
  match img.page_number with
  | none => 1
  | some 0 => 1
  | some n => n

/-- The sort key of services.py:536-539:
`(page_number or 0, position_y or 0)`. -/
def imgSortLe (a b : ImageInfo) : Bool :=
  let pa := a.page_number.getD 0
  let pb := b.page_number.getD 0
  pa < pb || (pa = pb && a.position_y.getD 0 ≤ b.position_y.getD 0)

/-- services.py:542-547: the `page_to_images` dict entry for page `k` —
the sorted images whose `page_number or 1` is `k`, in list order (a
Python dict built by appending preserves exactly this). -/
def pageImagesFor (imgs : List ImageInfo) (k : Nat) : List ImageInfo :=
  imgs.filter (fun img => pageKeyOf img = k)

/-- `k in page_to_images`. -/
def pageMapHas (imgs : List ImageInfo) (k : Nat) : Bool :=
  imgs.any (fun img => pageKeyOf img = k)

/-- State of the placement loop: emitted lines (in order), the
`placed_images` filename set, and `current_page`. -/
structure IntState where
  processed : List (List Char)
  placed : List (List Char)
  currentPage : Nat

/-- services.py:561-571: the context-match placement pass over one page's
image list (no break: several images may be placed after the same line). -/
def contextPlacePass (lines : List (List Char)) (i : Nat) (line : List Char) :
    List ImageInfo → IntState → IntState
  | [], st => st
  | img :: rest, st =>
    if st.placed.contains img.filename then contextPlacePass lines i line rest st
    else if should_place_image_here line img lines i then
      contextPlacePass lines i line rest
        { st with processed := st.processed ++ [[], imageLine img, []],
                  placed := st.placed ++ [img.filename] }
    else contextPlacePass lines i line rest st

/-- services.py:578-584: place the first unplaced image of a page list. -/
def headingPlaceOne (imgs : List ImageInfo) (st : IntState) : IntState :=
  match imgs.find? (fun img => !st.placed.contains img.filename) with
  | some img =>
    { st with processed := st.processed ++ [[], imageLine img, []],
              placed := st.placed ++ [img.filename] }
  | none => st

/-- services.py:574-585: after a heading line (beyond the first line),
place one image from the first page present in the map among
`range(max(1, current_page - 1), current_page + 2)`. -/
def headingPlacePass (sortedImages : List ImageInfo) (st : IntState) :
    IntState :=
  let lo := max 1 (st.currentPage - 1)
  let candidates := List.range' lo (st.currentPage + 2 - lo)
  match candidates.find? (fun p => pageMapHas sortedImages p) with
  | some p => headingPlaceOne (pageImagesFor sortedImages p) st
  | none => st

/-- The body of the `for i, line in enumerate(lines)` loop of
`_integrate_images_into_markdown` (services.py:553-585); the
`if current_page in page_to_images` guard is subsumed by the context pass
over the (possibly empty) page list. -/
def integrateStep (lines : List (List Char)) (sortedImages : List ImageInfo)
    (i : Nat) (line : List Char) (st : IntState) : IntState :=
  let st := { st with processed := st.processed ++ [line] }
  let st := if is_page_break_indicator line lines i then
    { st with currentPage := st.currentPage + 1 } else st
  let st := contextPlacePass lines i line (pageImagesFor sortedImages st.currentPage) st
  if (str "#").isPrefixOf (pyStrip line) && i > 0 then headingPlacePass sortedImages st
  else st

/-- The placement loop itself. -/
def integrateGo (lines : List (List Char)) (sortedImages : List ImageInfo) :
    List (List Char) → Nat → IntState → IntState
  | [], _, st => st
  | line :: rest, i, st =>
    integrateGo lines sortedImages rest (i + 1) (integrateStep lines sortedImages i line st)

/-- services.py:587-599: the trailing `## Document Images` block for
unplaced images. -/
def trailingBlock (header : List Char) (unplaced : List ImageInfo) :
    List (List Char) :=
  [[], str "---", [], header, []] ++
    unplaced.foldr (fun img acc => imageLine img :: [] :: acc) []

/-- services.py:526-600 `_integrate_images_into_markdown`. -/
def integrate_images_into_markdown (content : List Char)
    (images : List ImageInfo) : List Char :=
  if images.isEmpty then content
  else
    let lines := pySplitNl content
    let sortedImages := images.insertionSort (fun a b => imgSortLe a b = true)
    let st := integrateGo lines sortedImages lines 0
      { processed := [], placed := [], currentPage := 1 }
    let unplaced := sortedImages.filter (fun img => !st.placed.contains img.filename)
    let finalLines := if unplaced.isEmpty then st.processed
      else st.processed ++ trailingBlock (str "## Document Images") unplaced
    pyJoinNl finalLines

/-! ## DOCX positional placement (`services.py:646-874`) -/

/-- services.py:846-874 `_line_matches_image_context` (float `>= 0.4`
modelled as `5 * matches ≥ 2 * total`). -/
def line_matches_image_context (_line : List Char) (lines : List (List Char))
    (line_idx : Nat) (image : ImageInfo) : Bool :=
  match image.content_context with
  | none => false
  | some ctx =>
    if ctx.isEmpty then false
    else
      let start_idx := line_idx - 2
      let end_idx := min lines.length (line_idx + 2 + 1)
      let surrounding := pyLower
        (pyJoinWith (str " ") (pySlice lines start_idx end_idx))
      let meaningful := (pySplitWs (pyLower ctx)).filter (fun w => w.length > 3)
      let hits := (meaningful.filter (fun w => containsSub surrounding w)).length
      if meaningful.length > 0 then 5 * hits ≥ 2 * meaningful.length
      else false

/-- services.py:809-825: the per-line loop of
`_integrate_images_by_context_matching`; at most one image is placed per
line (the inner loop breaks). -/
def contextMatchGo (images : List ImageInfo) (lines : List (List Char)) :
    List (List Char) → Nat → List (List Char) → List (List Char) →
    List (List Char) × List (List Char)
  | [], _, acc, used => (acc, used)
  | line :: rest, i, acc, used =>
    let acc := acc ++ [line]
    match images.find? (fun img => !used.contains img.filename &&
        img.content_context.isSome &&
        !(img.content_context.getD []).isEmpty &&
        line_matches_image_context line lines i img) with
    | some img =>
      contextMatchGo images lines rest (i + 1)
        (acc ++ [[], imageLine img, []]) (used ++ [img.filename])
    | none => contextMatchGo images lines rest (i + 1) acc used

/-- services.py:800-844 `_integrate_images_by_context_matching`. -/
def integrate_images_by_context_matching (content : List Char)
    (images : List ImageInfo) : List Char :=
  if images.isEmpty then content
  else
    let lines := pySplitNl content
    let (acc, used) := contextMatchGo images lines lines 0 [] []
    let unused := images.filter (fun img => !used.contains img.filename)
    let finalLines := if unused.isEmpty then acc
      else acc ++ trailingBlock (str "## Additional Images") unused
    pyJoinNl finalLines

/-- services.py:706-711: index of the last line whose character offset is
at most `target` (offsets scanned in order, stopping at the first that
exceeds the target). -/
def bestLineIdx : List Nat → Nat → Nat → Nat → Nat
  | [], _, best, _ => best
  | lp :: rest, i, best, target =>
    if lp ≤ target then bestLineIdx rest (i + 1) i target
    else best

/-- services.py:694-697: running character offsets of the line starts. -/
def linePositions : List (List Char) → Nat → List Nat
  | [], _ => []
  | line :: rest, pos => pos :: linePositions rest (pos + line.length + 1)

/-- services.py:768-781: the `(offset, direction)` candidate scan of
`_find_best_insertion_point`; positions are signed because
`target - offset` may be negative. -/
def insertionCandidates (target : Nat) : List Int :=
  (List.range 4).flatMap fun offset =>
    [(0 : Int), 1, -1].map fun dir => (target : Int) + offset * dir

/-- services.py:752-798 `_find_best_insertion_point`. -/
def find_best_insertion_point (lines : List (List Char))
    (target_line_idx : Nat) (image : ImageInfo) : Nat :=
  let target := min target_line_idx (lines.length - 1)
  let start_idx := target - 3
  let end_idx := min lines.length (target + 3 + 1)
  let inRange := fun (j : Int) => (start_idx : Int) ≤ j && j < (end_idx : Int)
  let prio12 := (insertionCandidates target).find? fun j =>
    inRange j &&
    (let idx := j.toNat
     let line := pyStrip ((lines.get? idx).getD [])
     (str "#").isPrefixOf line ||
     (idx > 0 && (pyStrip ((lines.get? (idx - 1)).getD [])).isEmpty &&
      idx < lines.length - 1 &&
      !(pyStrip ((lines.get? (idx + 1)).getD [])).isEmpty))
  match prio12 with
  | some j => j.toNat
  | none =>
    let byContext :=
      match image.content_context with
      | none => none
      | some ctx =>
        if ctx.isEmpty then none
        else
          let contextWords := (pySplitWs (pyLower ctx)).take 5
          (List.range' start_idx (end_idx - start_idx)).find? fun idx =>
            let lineText := pyLower ((lines.get? idx).getD [])
            2 ≤ (contextWords.filter
              (fun w => w.length > 3 && containsSub lineText w)).length
    match byContext with
    | some idx => idx
    | none => target

/-- Python `xs[p:p] = new` (services.py:730-732): list splice with
clamping. -/
def spliceInsert {α : Type} (xs : List α) (p : Nat) (new : List α) : List α :=
  xs.take p ++ new ++ xs.drop p

/-- services.py:720-732: apply the interleaved insertions (already sorted
by line index, descending). -/
def applyInsertions : List (Nat × ImageInfo) → List (List Char) → List (List Char)
  | [], resultLines => resultLines
  | (lineIdx, image) :: rest, resultLines =>
    applyInsertions rest
      (spliceInsert resultLines (lineIdx + 1) [[], imageLine image, []])

/-- services.py:673-750 `_integrate_docx_images_by_position`. -/
def integrate_docx_images_by_position (content : List Char)
    (images : List ImageInfo) : List Char :=
  if images.isEmpty then content
  else
    let positioned := images.filter (fun img => img.position_in_content.isSome)
    let unpositioned := images.filter (fun img => img.position_in_content.isNone)
    let positioned := positioned.insertionSort
      (fun a b => (a.position_in_content.getD 0 ≤ b.position_in_content.getD 0))
    if positioned.isEmpty then integrate_images_by_context_matching content images
    else
      let lines := pySplitNl content
      let linePos := linePositions lines 0
      let insertions := positioned.map fun image =>
        let target := image.position_in_content.getD 0
        let best := bestLineIdx linePos 0 0 target
        (find_best_insertion_point lines best image, image)
      let insertions := insertions.insertionSort (fun a b => b.1 ≤ a.1)
      let resultLines := applyInsertions insertions lines
      let finalLines := if unpositioned.isEmpty then resultLines
        else resultLines ++ trailingBlock (str "## Additional Images") unpositioned
      pyJoinNl finalLines

/-- services.py:646-671 `_integrate_images_with_advanced_positioning`: the
PDF branch only re-opens the file (its advanced analysis is not
implemented) and falls through to the standard integration; the DOCX
branch dispatches on position data. -/
def integrate_images_with_advanced_positioning (content : List Char)
    (images : List ImageInfo) (file_path : Option (List Char)) : List Char :=
  if images.isEmpty then content
  else if hasSuffix file_path (str ".pdf") then
    integrate_images_into_markdown content images
  else if hasSuffix file_path (str ".docx") || hasSuffix file_path (str ".doc") then
    integrate_docx_images_by_position content images
  else integrate_images_into_markdown content images

/-! ## Retention sweep (`image_extractor.py:554-623`)

The image-storage root is modelled as explicit state: a list of entries,
each a subdirectory (with creation time, total content size as
`_get_folder_size` would compute it, and a flag saying whether
`shutil.rmtree` succeeds) or a regular file.  `now` is `time.time()`.
The source's outer `except` (image_extractor.py:606-612) catches
iteration/stat failures, which this model does not produce; per-folder
deletion failures are the inner `except` at 595-596. -/

inductive FsEntry where
  | dir (name : List Char) (ctime : Int) (size : Nat) (deletable : Bool)
  | file (name : List Char) (ctime : Int) (size : Nat)
deriving DecidableEq, Repr

/-- `is_dir()` -/
def FsEntry.isDir : FsEntry → Bool
  | .dir .. => true
  | .file .. => false

/-- The images root: whether `self.images_dir.exists()` and its entries in
iteration order. -/
structure ImagesRoot where
  rootExists : Bool
  entries : List FsEntry
deriving DecidableEq, Repr

/-- Python `round(x, 2)` on an exact rational (round half to even; the
source computes this on a float, which agrees away from representation
ties). -/
def pyRound2 (q : ℚ) : ℚ :=
  let s := q * 100
  let f : ℤ := ⌊s⌋
  let r := s - f
  let n : ℤ :=
    if r < 1/2 then f
    else if 1/2 < r then f + 1
    else if f % 2 = 0 then f else f + 1
  (n : ℚ) / 100

/-- The result dictionary of `cleanup_old_images`
(`freed_space_bytes` is the loop's byte accumulator,
image_extractor.py:574, from which the reported megabytes are derived). -/
structure CleanupResult where
  status : List Char
  reason : Option (List Char)
  deleted_folders : Nat
  freed_space_mb : ℚ
  deleted_folder_names : List (List Char)
  freed_space_bytes : Nat
deriving DecidableEq, Repr

/-- image_extractor.py:578-596: an entry is removed by the sweep when it
is a directory, its creation time precedes the cutoff, and `shutil.rmtree`
succeeds. -/
def sweptAway (cutoff : Int) : FsEntry → Bool
  | .file .. => false
  | .dir _ ct _ del => decide (ct < cutoff) && del

/-- The folders the loop deletes, in iteration order. -/
def sweepDeletedNames (cutoff : Int) : List FsEntry → List (List Char)
  | [] => []
  | e :: rest =>
    match e with
    | .dir n _ _ _ =>
      if sweptAway cutoff e then n :: sweepDeletedNames cutoff rest
      else sweepDeletedNames cutoff rest
    | .file .. => sweepDeletedNames cutoff rest

/-- The loop's `freed_space_bytes` accumulator. -/
def sweepFreedBytes (cutoff : Int) : List FsEntry → Nat
  | [] => 0
  | e :: rest =>
    match e with
    | .dir _ _ sz _ =>
      (if sweptAway cutoff e then sz else 0) + sweepFreedBytes cutoff rest
    | .file .. => sweepFreedBytes cutoff rest

/-- The entries surviving the sweep. -/
def sweepRemain (cutoff : Int) : List FsEntry → List FsEntry
  | [] => []
  | e :: rest =>
    if sweptAway cutoff e then sweepRemain cutoff rest
    else e :: sweepRemain cutoff rest

/-- image_extractor.py:554-612 `cleanup_old_images`, returning the status
dictionary and the root after the sweep. -/
def cleanup_old_images (root : ImagesRoot) (days_old : Nat) (now : Int) :
    CleanupResult × ImagesRoot :=
  if !root.rootExists then
    ({ status := str "skipped",
       reason := some (str "Images directory does not exist"),
       deleted_folders := 0, freed_space_mb := 0, deleted_folder_names := [],
       freed_space_bytes := 0 }, root)
  else
    let cutoff := now - (days_old : Int) * 24 * 60 * 60
    let f := sweepFreedBytes cutoff root.entries
    ({ status := str "completed", reason := none,
       deleted_folders := (sweepDeletedNames cutoff root.entries).length,
       freed_space_mb := pyRound2 ((f : ℚ) / (1024 * 1024)),
       deleted_folder_names := sweepDeletedNames cutoff root.entries,
       freed_space_bytes := f },
     { root with entries := sweepRemain cutoff root.entries })

/-! ## Scheduler start-up (`scheduler.py:45-79`) -/

/-- Worker for `pyIntParse`: decimal digits with single interior
underscores; the flag records whether the previous character was a digit. -/
def digitsParseGo : List Char → Nat → Bool → Option Nat
  | [], acc, lastDigit => if lastDigit then some acc else none
  | c :: rest, acc, lastDigit =>
    if pyIsDigit c then digitsParseGo rest (acc * 10 + (c.toNat - 48)) true
    else if c = '_' && lastDigit then digitsParseGo rest acc false
    else none

/-- Python `int(s)` on a string: optional surrounding whitespace, optional
sign, decimal digits with single interior underscores; `none` is
`ValueError`. -/
def pyIntParse (s : List Char) : Option Int :=
  match pyStrip s with
  | '+' :: rest => (digitsParseGo rest 0 false).map Int.ofNat
  | '-' :: rest => (digitsParseGo rest 0 false).map (fun n => -(n : Int))
  | rest => (digitsParseGo rest 0 false).map Int.ofNat

/-- scheduler.py:52-58: does the configured time pass the start-up
validation (split on `:` into two parts, `int()` both, range checks)? -/
def cleanupTimeAccepted (t : List Char) : Bool :=
  match pySplitChar ':' t with
  | [h, m] =>
    match pyIntParse h, pyIntParse m with
    | some hh, some mm => decide (0 ≤ hh ∧ hh ≤ 23 ∧ 0 ≤ mm ∧ mm ≤ 59)
    | _, _ => false
  | _ => false

/-- The scheduler's observable state: `running`, the configured values and
the wall-clock times registered with the `schedule` library. -/
structure SchedulerState where
  running : Bool
  cleanup_days : Nat
  cleanup_time : List Char
  scheduled_jobs : List (List Char)
deriving DecidableEq, Repr

/-- scheduler.py:45-79 `start_scheduler`: a second start is a no-op;
an invalid time is replaced by the documented default `02:00`; the
(possibly substituted) time is registered and the scheduler marked
running.  Thread start and the immediate `run_cleanup` are external
effects with no bearing on this state. -/
def start_scheduler (st : SchedulerState) : SchedulerState :=
  if st.running then st
  else
    let t := if cleanupTimeAccepted st.cleanup_time then st.cleanup_time
             else str "02:00"
    { st with cleanup_time := t, scheduled_jobs := st.scheduled_jobs ++ [t],
              running := true }

/-- Modelled from the spec: a string is a valid `HH:MM` value (§6
"daily cleanup time (`HH:MM`)") when it is exactly two decimal digits, a
colon and two decimal digits, with the hour at most 23 and the minute at
most 59.  This is the spec-side notion that claim C9 compares against the
code's `cleanupTimeAccepted`. -/
def specValidHHMM (t : List Char) : Bool :=
  match t with
  | [h1, h2, ':', m1, m2] =>
    pyIsDigit h1 && pyIsDigit h2 && pyIsDigit m1 && pyIsDigit m2 &&
    (h1.toNat - 48) * 10 + (h2.toNat - 48) ≤ 23 &&
    (m1.toNat - 48) * 10 + (m2.toNat - 48) ≤ 59
  | _ => false

/-! ## The `convert_file` enrichment pipeline (services.py:1217-1283)

`md.convert` (the raw extraction library) is the excluded collaborator:
its output is the pipeline's `raw` input.  Image extraction reads the
original file; `extract_images_from_file` (image_extractor.py:45-74)
dispatches on the extension and returns `[]` for unsupported extensions,
so for such files the pipeline's image list starts empty.  This
composition models the non-PDF path: the PDF-only annotation stages
(services.py:1252-1257) are skipped exactly as the source skips them when
the suffix is not `.pdf`, and the definition is not used for `.pdf`
inputs. -/

/-- The extensions `extract_images_from_file` dispatches on
(image_extractor.py:59-74); anything else yields no images. -/
def extractorSupportedSuffixes : List (List Char) :=
  [str ".pdf", str ".docx", str ".doc", str ".pptx", str ".ppt",
   str ".xlsx", str ".xls", str ".odt", str ".ods", str ".odp",
   str ".html", str ".htm", str ".xml", str ".zip", str ".rar", str ".7z"]

/-- `extract_images_from_file` with the per-format handler abstracted:
`handlerImages` stands for what the format handler reads from the file. -/
def extract_images_from_file (file_path : List Char)
    (handlerImages : List ImageInfo) : List ImageInfo :=
  if extractorSupportedSuffixes.contains (pathSuffixLower file_path) then
    handlerImages
  else []

/-- services.py:1234-1274: the enrichment stages of `convert_file` after
`md.convert`, for a non-PDF input file. -/
def convertFileEnrichment (raw : List Char) (file_path : List Char)
    (create_pages : Bool) (document_name base_url : List Char)
    (handlerImages : List ImageInfo) (uids : Nat → List Char) :
    List Char × List ImageInfo :=
  let content := remove_remaining_base64_images raw
  let images := extract_images_from_file file_path handlerImages
  let content := enhance_heading_detection content
  let content := integrate_images_with_advanced_positioning content images
    (some file_path)
  let content := add_page_numbers_to_markdown content (some file_path) create_pages
  let content := convert_hyperlinks_to_markdown content
  let r := convert_base64_images_to_files content document_name base_url uids
  let images := images ++ r.images
  let content := remove_remaining_base64_images r.content
  (content, images)


/-! ## Claims -/

/-- C7: With `createPages = false`, the Pagination Segmenter is a pure
pass-through: for every content string and file path,
`_add_page_numbers_to_markdown` returns a string byte-identical to its
input (services.py:411-412). -/
theorem spec_c7_pagination_passthrough (content : List Char)
    (file_path : Option (List Char)) :
    add_page_numbers_to_markdown content file_path false = content := by
  simp [add_page_numbers_to_markdown]

/-- C9 counterexample: `"+2:30"` is not a valid `HH:MM` value, yet
starting the scheduler with it does not substitute the default `02:00`:
the code's validation accepts it because Python's `int` accepts a leading
sign, so the configured string is kept (and handed to the `schedule`
library verbatim). -/
theorem spec_c9_counterexample :
    specValidHHMM (str "+2:30") = false ∧
    (start_scheduler ⟨false, 7, str "+2:30", []⟩).cleanup_time =
      str "+2:30" := by
  constructor
  · decide
  · decide

/-- C9 (amended): if the configured cleanup time fails the *code's* parse
check (`split(':')` into two parts, Python `int()` on both, hour 0-23 and
minute 0-59), starting a stopped scheduler substitutes the documented
default `02:00`, registers the daily job at `02:00` and marks the
scheduler running.  Strings that are not canonical `HH:MM` but that
Python's `int` still parses (embedded sign, surrounding whitespace,
underscore grouping) pass the check unsubstituted. -/
theorem spec_c9_amended (st : SchedulerState) (hrun : st.running = false)
    (hbad : cleanupTimeAccepted st.cleanup_time = false) :
    (start_scheduler st).cleanup_time = str "02:00" ∧
    (start_scheduler st).running = true ∧
    (start_scheduler st).scheduled_jobs = st.scheduled_jobs ++ [str "02:00"] := by
  simp [start_scheduler, hrun, hbad]

/-- Witness for the amended C9 at the concrete invalid time `"25:00"`. -/
theorem spec_c9_amended_witness :
    (start_scheduler ⟨false, 7, str "25:00", []⟩).cleanup_time = str "02:00" ∧
    (start_scheduler ⟨false, 7, str "25:00", []⟩).running = true ∧
    (start_scheduler ⟨false, 7, str "25:00", []⟩).scheduled_jobs =
      ([] : List (List Char)) ++ [str "02:00"] :=
  spec_c9_amended ⟨false, 7, str "25:00", []⟩ rfl (by decide)

/-- C8 counterexample: a non-empty (100-byte) document folder created 10
days ago is deleted by a retention-7 sweep and the sweep completes, but
the reported freed figure is `freed_space_mb = round(bytes / 2^20, 2)`,
which is `0` for this non-empty folder — not a positive freed-space
report as the claim states. -/
theorem spec_c8_counterexample :
    (cleanup_old_images
        ⟨true, [.dir (str "olddoc_ab12cd34") (1700000000 - 10 * 86400) 100 true]⟩
        7 1700000000).1.status = str "completed" ∧
    (cleanup_old_images
        ⟨true, [.dir (str "olddoc_ab12cd34") (1700000000 - 10 * 86400) 100 true]⟩
        7 1700000000).1.deleted_folder_names = [str "olddoc_ab12cd34"] ∧
    (cleanup_old_images
        ⟨true, [.dir (str "olddoc_ab12cd34") (1700000000 - 10 * 86400) 100 true]⟩
        7 1700000000).1.freed_space_mb = 0 := by
  refine ⟨by decide, by decide, ?_⟩
  norm_num [cleanup_old_images, sweepFreedBytes, sweptAway, pyRound2]

/-- C8 (amended): sweeping a root holding a folder whose deletion fails
followed by a non-empty folder older than the cutoff deletes the old
folder, accumulates its (positive) size in the `freed_space_bytes`
counter, reports a completed status, and is not aborted by the failed
deletion (which is skipped, its folder surviving).  The *reported* size
figure is megabytes rounded to two decimals and can be `0` for small
folders. -/
theorem spec_c8_amended (nBad nOld : List Char) (ctBad ctOld : Int)
    (szBad szOld : Nat) (days : Nat) (now : Int)
    (hBadOld : ctBad < now - (days : Int) * 24 * 60 * 60)
    (hOld : ctOld < now - (days : Int) * 24 * 60 * 60)
    (hSz : 0 < szOld) :
    (cleanup_old_images
        ⟨true, [.dir nBad ctBad szBad false, .dir nOld ctOld szOld true]⟩
        days now).1.status = str "completed" ∧
    (cleanup_old_images
        ⟨true, [.dir nBad ctBad szBad false, .dir nOld ctOld szOld true]⟩
        days now).1.deleted_folders = 1 ∧
    (cleanup_old_images
        ⟨true, [.dir nBad ctBad szBad false, .dir nOld ctOld szOld true]⟩
        days now).1.deleted_folder_names = [nOld] ∧
    0 < (cleanup_old_images
        ⟨true, [.dir nBad ctBad szBad false, .dir nOld ctOld szOld true]⟩
        days now).1.freed_space_bytes ∧
    (cleanup_old_images
        ⟨true, [.dir nBad ctBad szBad false, .dir nOld ctOld szOld true]⟩
        days now).2.entries = [.dir nBad ctBad szBad false] := by
  simp [cleanup_old_images, sweepDeletedNames, sweepFreedBytes, sweepRemain,
    sweptAway, hBadOld, hOld, hSz]

/-- Witness for the amended C8: retention 7 days, a folder whose deletion
fails and a 100-byte folder, both created 10 days ago. -/
theorem spec_c8_amended_witness :
    (cleanup_old_images
        ⟨true, [.dir (str "bad_f0ldr") (1700000000 - 10 * 86400) 5 false,
                .dir (str "olddoc_ab12cd34") (1700000000 - 10 * 86400) 100 true]⟩
        7 1700000000).1.status = str "completed" ∧
    (cleanup_old_images
        ⟨true, [.dir (str "bad_f0ldr") (1700000000 - 10 * 86400) 5 false,
                .dir (str "olddoc_ab12cd34") (1700000000 - 10 * 86400) 100 true]⟩
        7 1700000000).1.deleted_folders = 1 ∧
    (cleanup_old_images
        ⟨true, [.dir (str "bad_f0ldr") (1700000000 - 10 * 86400) 5 false,
                .dir (str "olddoc_ab12cd34") (1700000000 - 10 * 86400) 100 true]⟩
        7 1700000000).1.deleted_folder_names = [str "olddoc_ab12cd34"] ∧
    0 < (cleanup_old_images
        ⟨true, [.dir (str "bad_f0ldr") (1700000000 - 10 * 86400) 5 false,
                .dir (str "olddoc_ab12cd34") (1700000000 - 10 * 86400) 100 true]⟩
        7 1700000000).1.freed_space_bytes ∧
    (cleanup_old_images
        ⟨true, [.dir (str "bad_f0ldr") (1700000000 - 10 * 86400) 5 false,
                .dir (str "olddoc_ab12cd34") (1700000000 - 10 * 86400) 100 true]⟩
        7 1700000000).2.entries =
      [.dir (str "bad_f0ldr") (1700000000 - 10 * 86400) 5 false] :=
  spec_c8_amended _ _ _ _ _ _ _ _ (by decide) (by decide) (by decide)

/-- `is_dir()` on a file entry. -/
theorem isDir_file (n : List Char) (c : Int) (s : Nat) :
    (FsEntry.file n c s).isDir = false := rfl

/-- `is_dir()` on a directory entry. -/
theorem isDir_dir (n : List Char) (ct : Int) (sz : Nat) (del : Bool) :
    (FsEntry.dir n ct sz del).isDir = true := rfl

/-- Helper for C10: the survivor list keeps every non-directory entry. -/
theorem sweepRemain_files (cutoff : Int) (es : List FsEntry) :
    (sweepRemain cutoff es).filter (fun e => !e.isDir) =
      es.filter (fun e => !e.isDir) := by
  induction es with
  | nil => rfl
  | cons e rest ih =>
    cases e with
    | file n c s =>
      have h : sweptAway cutoff (.file n c s) = false := rfl
      simp only [sweepRemain, h, Bool.false_eq_true, if_false, List.filter_cons,
        isDir_file, Bool.not_false, if_true, ih]
    | dir n ct sz del =>
      by_cases h : sweptAway cutoff (.dir n ct sz del) = true
      · simp only [sweepRemain, h, if_true, ih, List.filter_cons, isDir_dir,
          Bool.not_true, Bool.false_eq_true, if_false]
      · simp only [Bool.not_eq_true] at h
        simp only [sweepRemain, h, Bool.false_eq_true, if_false,
          List.filter_cons, isDir_dir, Bool.not_true, ih]

/-- C10: the retention sweep deletes only immediate subdirectories of the
images root; every non-directory entry of the root survives every sweep
unchanged and in its original position, regardless of its age. -/
theorem spec_c10_files_untouched (root : ImagesRoot) (days : Nat) (now : Int) :
    ((cleanup_old_images root days now).2).entries.filter (fun e => !e.isDir) =
      root.entries.filter (fun e => !e.isDir) := by
  unfold cleanup_old_images
  by_cases h : root.rootExists = true
  · simp [h, sweepRemain_files]
  · simp only [Bool.not_eq_true] at h
    simp [h]

/-- C4 counterexample: the Heading Normalizer is not idempotent.  On
`"Project Overview\nhello world\n------"` the first run promotes the
underlined line to `# hello world`; on the second run the line
`Project Overview` — whose next line now starts with `#` instead of a
lower-case letter — passes the standalone-title test and is promoted too,
so the second run changes the output again. -/
theorem spec_c4_counterexample :
    enhance_heading_detection
        (enhance_heading_detection (str "Project Overview\nhello world\n------")) ≠
      enhance_heading_detection (str "Project Overview\nhello world\n------") := by
  decide

/-- `'\n'.join` after a split on `'\n'` is the identity. -/
theorem joinNl_splitNl (s : List Char) : pyJoinNl (pySplitNl s) = s := by
  induction s with
  | nil => rfl
  | cons c rest ih =>
    have hne : pySplitNl rest ≠ [] := by
      cases rest with
      | nil => simp [pySplitNl]
      | cons d ds =>
        simp only [pySplitNl]
        split <;> rename_i h
        · simp
        · cases pySplitNl ds <;> simp
    by_cases hc : c = '\n'
    · subst hc
      simp only [pySplitNl, if_pos rfl]
      cases hT : pySplitNl rest with
      | nil => exact absurd hT hne
      | cons l ls =>
        rw [hT] at ih
        cases ls with
        | nil => simp [pyJoinNl] at ih ⊢; exact ih
        | cons l2 ls2 => simp [pyJoinNl] at ih ⊢; exact ih
    · simp only [pySplitNl, if_neg hc]
      cases hT : pySplitNl rest with
      | nil => exact absurd hT hne
      | cons l ls =>
        rw [hT] at ih
        cases ls with
        | nil => simp [pyJoinNl] at ih ⊢; exact ih
        | cons l2 ls2 =>
          simp [pyJoinNl] at ih ⊢
          exact ih

/-- A line that is already a heading or blank is passed through by the
loop body. -/
theorem enhanceStep_plain (lines : List (List Char)) (i : Nat)
    (orig : List Char) (hasNext : Bool) (nextOrig : List Char)
    (h : (str "#").isPrefixOf (pyStrip orig) = true ∨ pyStrip orig = []) :
    enhanceStep lines i orig hasNext nextOrig = .plain := by
  rcases h with h | h
  · simp [enhanceStep, h]
  · have h2 : (str "#").isPrefixOf (pyStrip orig) = false := by
      rw [h]; rfl
    simp [enhanceStep, h, h2]

/-- On content whose lines are all headings or blank, the loop is the
identity. -/
theorem enhanceGo_id (suffix : List (List Char))
    (h : ∀ l ∈ suffix, (str "#").isPrefixOf (pyStrip l) = true ∨ pyStrip l = []) :
    ∀ (lines : List (List Char)) (i : Nat), enhanceGo lines suffix i = suffix := by
  induction suffix with
  | nil => intro lines i; rfl
  | cons orig rest ih =>
    intro lines i
    have horig := h orig (by simp)
    have hrest : ∀ l ∈ rest, (str "#").isPrefixOf (pyStrip l) = true ∨ pyStrip l = [] :=
      fun l hl => h l (by simp [hl])
    cases rest with
    | nil =>
      simp only [enhanceGo, enhanceStep_plain lines i orig false [] horig]
    | cons next rest' =>
      simp only [enhanceGo, enhanceStep_plain lines i orig true next horig]
      rw [ih hrest lines (i + 1)]

/-- C4 (amended): the Heading Normalizer is idempotent on inputs it
already fixes — in particular on content whose every line is already a
Markdown heading or blank and on which the adjacent-duplicate-heading
collapse finds nothing.  (In general it is *not* idempotent:
`spec_c4_counterexample`.) -/
theorem spec_c4_amended (s : List Char)
    (hlines : ∀ l ∈ pySplitNl s,
      (str "#").isPrefixOf (pyStrip l) = true ∨ pyStrip l = [])
    (hcollapse : reSub false dupHeadingPat
      [.lit (str "\n# "), .ref 1, .lit (str "\n")] s = s) :
    enhance_heading_detection (enhance_heading_detection s) =
      enhance_heading_detection s := by
  have hid : enhance_heading_detection s = s := by
    unfold enhance_heading_detection
    split
    · rfl
    · simp only [enhanceGo_id (pySplitNl s) hlines (pySplitNl s) 0,
        joinNl_splitNl, hcollapse]
  rw [hid]
  exact hid

/-- Witness for the amended C4 at `"# A\n\n# B"`. -/
theorem spec_c4_amended_witness :
    enhance_heading_detection (enhance_heading_detection (str "# A\n\n# B")) =
      enhance_heading_detection (str "# A\n\n# B") :=
  spec_c4_amended (str "# A\n\n# B") (by decide) (by decide)

/-- A deterministic folder-suffix supply used by the concrete resolver
runs: the k-th `_create_document_folder` call yields `uid<k>`. -/
def uidSupply : Nat → List Char := fun k => str "uid" ++ natToStr k

/-- C6 counterexample: the matched base64 image
`![a](data:image/png;base64,AAAA)` has a payload that decodes to 3 bytes —
far below the 100-byte threshold — yet the resolver leaves it in place
untouched (the `len(base64_data) < 10` guard at services.py:938-939 skips
the match without removing it); no record and no file are created. -/
theorem spec_c6_counterexample :
    (convert_base64_images_to_files (str "![a](data:image/png;base64,AAAA)")
        (str "d") (str "http://h") uidSupply).content =
      str "![a](data:image/png;base64,AAAA)" ∧
    (convert_base64_images_to_files (str "![a](data:image/png;base64,AAAA)")
        (str "d") (str "http://h") uidSupply).images = [] ∧
    containsSub (convert_base64_images_to_files
        (str "![a](data:image/png;base64,AAAA)")
        (str "d") (str "http://h") uidSupply).content (str "base64") = true := by
  refine ⟨by decide, by decide, by decide⟩

/-- C6 (amended): a matched base64 image whose cleaned payload has at
least 10 characters and cannot be decoded (here 11 characters, an invalid
base64 length), or decodes to fewer than 100 bytes (here 16 characters,
12 bytes), is removed from the text and produces no ImageRecord and no
file; because a standard Markdown match is found by two overlapping
patterns, the second removal also clips the text that followed the match.
Matches with payloads shorter than 10 characters are skipped in place
(`spec_c6_counterexample`). -/
theorem spec_c6_amended :
    (convert_base64_images_to_files
        (str "A\n![x](data:image/png;base64,AAAAAAAAAAA)\nB")
        (str "d") (str "http://h") uidSupply) =
      { content := str "A\n", images := [], writes := [] } ∧
    (convert_base64_images_to_files
        (str "A\n![y](data:image/png;base64,AAAAAAAAAAAAAAAA)\nB")
        (str "d") (str "http://h") uidSupply) =
      { content := str "A\n", images := [], writes := [] } := by
  refine ⟨by decide, by decide⟩

/-- A small valid PNG (the 8-byte PNG signature followed by 94 bytes,
102 bytes in total — above the resolver's 100-byte threshold). -/
def smallPng : List Nat :=
  [0x89, 0x50, 0x4E, 0x47, 0x0D, 0x0A, 0x1A, 0x0A] ++ List.range 94

/-- The Markdown text embedding `smallPng` as a base64 image. -/
def smallPngMarkdown : List Char :=
  str "![logo](data:image/png;base64," ++ pyB64Encode smallPng ++ str ")"

/-- C3: encoding a small valid PNG as a base64 Markdown image and running
the Base64 Inliner Resolver on the containing text yields an ImageRecord
(`logo.png`) whose saved file's bytes equal the original PNG bytes, and a
content string containing no base64 residue.  (The standard-Markdown
match is found by two overlapping source patterns, so the record and the
write are actually produced twice, both with the original bytes.) -/
theorem spec_c3_base64_roundtrip :
    (convert_base64_images_to_files smallPngMarkdown (str "My Doc")
        (str "http://localhost:8000") uidSupply).writes.head? =
      some (str "my_doc_uid0/logo.png", smallPng) ∧
    ((convert_base64_images_to_files smallPngMarkdown (str "My Doc")
        (str "http://localhost:8000") uidSupply).images.map
        ImageInfo.filename).head? = some (str "logo.png") ∧
    containsSub (convert_base64_images_to_files smallPngMarkdown (str "My Doc")
        (str "http://localhost:8000") uidSupply).content (str "base64") = false := by
  refine ⟨by decide, by decide, by decide⟩

/-- The C5 scenario content: four plain heading lines (none on the first
line, none containing a page-break keyword). -/
def c5Content : List Char :=
  str "Intro\n# One\ntext a\n# Two\ntext b\n# Three\ntext c\n# Four"

/-- A metadata-free image record (no position, page or context data). -/
def bareImg (f u : String) : ImageInfo := { filename := f.data, url := u.data }

/-- C5 counterexample: with four metadata-free images and four headings,
the Image Placement Engine places *all four* images inline (one after each
heading) and emits no trailing `## Document Images` section — there is no
cap of three inline placements in the code. -/
theorem spec_c5_counterexample :
    integrate_images_into_markdown c5Content
        [bareImg "img1.png" "u1", bareImg "img2.png" "u2",
         bareImg "img3.png" "u3", bareImg "img4.png" "u4"] =
      str "Intro\n# One\n\n![img1.png](u1)\n\ntext a\n# Two\n\n![img2.png](u2)\n\ntext b\n# Three\n\n![img3.png](u3)\n\ntext c\n# Four\n\n![img4.png](u4)\n" ∧
    (pySplitNl (integrate_images_into_markdown c5Content
        [bareImg "img1.png" "u1", bareImg "img2.png" "u2",
         bareImg "img3.png" "u3", bareImg "img4.png" "u4"])).contains
      (str "## Document Images") = false ∧
    (pySplitNl (integrate_images_into_markdown c5Content
        [bareImg "img1.png" "u1", bareImg "img2.png" "u2",
         bareImg "img3.png" "u3", bareImg "img4.png" "u4"])).count
      (imageLine (bareImg "img4.png" "u4")) = 1 := by
  refine ⟨by decide, by decide, by decide⟩

/-- C5 (amended): there is no inline cap of three — the engine places one
image after each heading line beyond the first, and only images never
placed inline go to the trailing `## Document Images` section.  In the
claimed scenario (two metadata-free images, four heading lines) both
images are inserted after the first two headings in encounter order and
none end up in the trailing section. -/
theorem spec_c5_amended :
    integrate_images_into_markdown c5Content
        [bareImg "img1.png" "u1", bareImg "img2.png" "u2"] =
      str "Intro\n# One\n\n![img1.png](u1)\n\ntext a\n# Two\n\n![img2.png](u2)\n\ntext b\n# Three\ntext c\n# Four" := by
  decide

/-- C2 counterexample: a record whose filename already occurs in the input
text ends up appearing twice in the final content — once as the original
text and once in the inserted reference — so a record's filename need not
appear exactly once. -/
theorem spec_c2_counterexample :
    countSub (integrate_images_into_markdown (str "pic.png\n# H")
        [bareImg "pic.png" "u"]) (str "pic.png") = 2 := by
  decide

/-- C1 counterexample: a text file whose extracted raw content is the bare
word `base64` flows through every enrichment stage unchanged, so the
final pipeline output *does* contain the substring `base64` — the final
cleanup only removes recognized data-URI/image shapes, not bare text. -/
theorem spec_c1_counterexample :
    (convertFileEnrichment (str "base64") (str "doc.txt") false (str "doc")
        (str "http://h") [] uidSupply).1 = str "base64" ∧
    containsSub (convertFileEnrichment (str "base64") (str "doc.txt") false
        (str "doc") (str "http://h") [] uidSupply).1 (str "base64") = true := by
  refine ⟨by decide, by decide⟩

/-- The raw content for the amended C1: a title, a standard Markdown
base64 image and a body paragraph. -/
def c1Raw : List Char :=
  str "Title\n\n![logo](data:image/png;base64," ++ List.replicate 24 'A' ++
    str ")\n\nBody text here."

/-- C1 (amended): the no-residue invariant holds for content whose base64
data appears inside standard Markdown base64 images: the pipeline removes
the image outright (the immediate cleanup at services.py:1243 strips it),
and the final content contains neither the substring `base64` nor any
image syntax at all — in particular no empty-target `![...]()`.  A bare
occurrence of `base64` outside such syntax survives
(`spec_c1_counterexample`). -/
theorem spec_c1_amended :
    (convertFileEnrichment c1Raw (str "doc.txt") false (str "doc")
        (str "http://h") [] uidSupply).1 = str "Title\n\nBody text here." ∧
    containsSub (convertFileEnrichment c1Raw (str "doc.txt") false (str "doc")
        (str "http://h") [] uidSupply).1 (str "base64") = false ∧
    containsSub (convertFileEnrichment c1Raw (str "doc.txt") false (str "doc")
        (str "http://h") [] uidSupply).1 (str "![") = false := by
  refine ⟨by decide, by decide, by decide⟩

/-! ### Exactly-once placement: supporting lemmas for C2 -/

/-- `imageLine` in head-normal form. -/
theorem imageLine_eq (img : ImageInfo) :
    imageLine img =
      '!' :: '[' :: (img.filename ++ ']' :: '(' :: (img.url ++ [')'])) := by
  simp [imageLine, str]

/-- An image reference line is never empty. -/
theorem imageLine_ne_nil (img : ImageInfo) : imageLine img ≠ [] := by
  rw [imageLine_eq]; simp

/-- An image reference line starts with `!`, so it differs from any line
that does not. -/
theorem imageLine_ne (img : ImageInfo) (s : List Char)
    (hs : s.head? ≠ some '!') : imageLine img ≠ s := by
  rw [imageLine_eq]; intro h
  exact hs (by rw [← h]; rfl)

/-- Splitting at the first occurrence of a separator character is
unambiguous. -/
theorem append_sep_inj (c : Char) (xs : List Char) :
    ∀ (ys t u : List Char), c ∉ xs → c ∉ ys →
      xs ++ c :: t = ys ++ c :: u → xs = ys ∧ t = u := by
  induction xs with
  | nil =>
    intro ys t u _ hy h
    cases ys with
    | nil => simp at h; exact ⟨rfl, h⟩
    | cons y ys' =>
      simp at h
      exact absurd (h.1 ▸ List.mem_cons_self y ys') (h.1 ▸ hy)
  | cons x xs' ih =>
    intro ys t u hx hy h
    cases ys with
    | nil =>
      simp at h
      exact absurd (h.1 ▸ List.mem_cons_self x xs') (h.1 ▸ hx)
    | cons y ys' =>
      simp only [List.cons_append, List.cons.injEq] at h
      obtain ⟨hxy, h2⟩ := h
      have := ih ys' t u (fun m => hx (List.mem_cons_of_mem _ m))
        (fun m => hy (List.mem_cons_of_mem _ m)) h2
      exact ⟨by rw [hxy, this.1], this.2⟩

/-- Two image reference lines with `]`-free filenames agree on the
filename as soon as the lines agree. -/
theorem imageLine_filename_eq (a b : ImageInfo) (ha : ']' ∉ a.filename)
    (hb : ']' ∉ b.filename) (h : imageLine a = imageLine b) :
    a.filename = b.filename := by
  rw [imageLine_eq, imageLine_eq] at h
  simp only [List.cons.injEq, true_and] at h
  exact (append_sep_inj ']' a.filename b.filename _ _ ha hb h).1

/-- Lines produced by splitting on newlines contain no newline. -/
theorem mem_splitNl_no_nl (s : List Char) :
    ∀ l ∈ pySplitNl s, '\n' ∉ l := by
  induction s with
  | nil => intro l hl; simp [pySplitNl] at hl; simp [hl]
  | cons c rest ih =>
    intro l hl
    simp only [pySplitNl] at hl
    by_cases hc : c = '\n'
    · rw [if_pos hc] at hl
      rcases List.mem_cons.mp hl with h | h
      · simp [h]
      · exact ih l h
    · rw [if_neg hc] at hl
      cases hT : pySplitNl rest with
      | nil =>
        rw [hT] at hl
        simp at hl
        subst hl
        simp only [List.mem_singleton]
        exact fun h => hc h.symm
      | cons l0 ls =>
        rw [hT] at hl
        rcases List.mem_cons.mp hl with h | h
        · subst h
          intro hmem
          rcases List.mem_cons.mp hmem with h | h
          · exact hc h.symm
          · exact ih l0 (hT ▸ List.mem_cons_self l0 ls) h
        · exact ih l (hT ▸ List.mem_cons_of_mem l0 h)

/-- No newline in an image reference line built from newline-free
filename and url. -/
theorem imageLine_no_nl (img : ImageInfo) (h1 : '\n' ∉ img.filename)
    (h2 : '\n' ∉ img.url) : '\n' ∉ imageLine img := by
  rw [imageLine_eq]
  intro h
  rcases List.mem_cons.mp h with h | h
  · cases h
  rcases List.mem_cons.mp h with h | h
  · cases h
  rcases List.mem_append.mp h with h | h
  · exact h1 h
  rcases List.mem_cons.mp h with h | h
  · cases h
  rcases List.mem_cons.mp h with h | h
  · cases h
  rcases List.mem_append.mp h with h | h
  · exact h2 h
  · simp at h

/-- Splitting a newline-free line yields just that line. -/
theorem splitNl_no_nl (l : List Char) (h : '\n' ∉ l) : pySplitNl l = [l] := by
  induction l with
  | nil => rfl
  | cons c rest ih =>
    have hc : c ≠ '\n' := fun hc => h (hc ▸ List.mem_cons_self c rest)
    have hr : '\n' ∉ rest := fun hm => h (List.mem_cons_of_mem c hm)
    simp only [pySplitNl, if_neg hc, ih hr]

/-- Splitting after the first newline-free line peels it off. -/
theorem splitNl_append (l t : List Char) (h : '\n' ∉ l) :
    pySplitNl (l ++ '\n' :: t) = l :: pySplitNl t := by
  induction l with
  | nil => simp [pySplitNl]
  | cons c rest ih =>
    have hc : c ≠ '\n' := fun hc => h (hc ▸ List.mem_cons_self c rest)
    have hr : '\n' ∉ rest := fun hm => h (List.mem_cons_of_mem c hm)
    show pySplitNl (c :: (rest ++ '\n' :: t)) = _
    simp only [pySplitNl, if_neg hc]
    rw [ih hr]

/-- Joining newline-free lines and splitting again is the identity. -/
theorem splitNl_joinNl (ls : List (List Char)) (hne : ls ≠ [])
    (h : ∀ l ∈ ls, '\n' ∉ l) : pySplitNl (pyJoinNl ls) = ls := by
  induction ls with
  | nil => exact absurd rfl hne
  | cons l rest ih =>
    cases rest with
    | nil => exact splitNl_no_nl l (h l (List.mem_cons_self l []))
    | cons l2 rest2 =>
      have hl : '\n' ∉ l := h l (List.mem_cons_self _ _)
      have hrest : ∀ x ∈ l2 :: rest2, '\n' ∉ x :=
        fun x hx => h x (List.mem_cons_of_mem _ hx)
      show pySplitNl (l ++ '\n' :: pyJoinNl (l2 :: rest2)) = _
      rw [splitNl_append l _ hl, ih (by simp) hrest]

/-- `List.contains` after snoc. -/
theorem contains_append_singleton (l : List (List Char)) (a b : List Char) :
    (l ++ [a]).contains b = (l.contains b || a == b) := by
  induction l with
  | nil =>
    simp only [List.nil_append, List.contains_cons, List.contains_nil,
      Bool.or_false, Bool.false_or]
    by_cases h : a = b
    · subst h; rfl
    · rw [beq_eq_false_iff_ne.mpr (Ne.symm h), beq_eq_false_iff_ne.mpr h]
  | cons x xs ih =>
    simp only [List.cons_append, List.contains_cons, ih, Bool.or_assoc]

/-- Counting an image of a nodup-by-`f` list among the `f`-images. -/
theorem count_map_nodup {α β : Type} [DecidableEq α] [BEq β] [LawfulBEq β]
    (f : α → β) (a : α) :
    ∀ (l : List α), (∀ x ∈ l, f x = f a → x = a) → l.Nodup →
      (l.map f).count (f a) = (if a ∈ l then 1 else 0) := by
  intro l
  induction l with
  | nil => intro _ _; simp
  | cons u l' ih =>
    intro hinj hnd
    simp only [List.map_cons, List.count_cons]
    by_cases hfu : f u = f a
    · have hua : u = a := hinj u (List.mem_cons_self _ _) hfu
      subst hua
      have hnotin : u ∉ l' := (List.nodup_cons.mp hnd).1
      rw [ih (fun x hx hf => hinj x (List.mem_cons_of_mem _ hx) hf)
        (List.nodup_cons.mp hnd).2]
      simp [hnotin, hfu]
    · have hua : u ≠ a := fun h => hfu (h ▸ rfl)
      rw [ih (fun x hx hf => hinj x (List.mem_cons_of_mem _ hx) hf)
        (List.nodup_cons.mp hnd).2]
      simp [hfu, Ne.symm hua, hua]

/-- The placement-loop invariant for C2: every sorted record's reference
line occurs in the emitted lines exactly once if its filename has been
placed and not at all otherwise, and no emitted line contains a
newline. -/
def C2Inv (sorted : List ImageInfo) (st : IntState) : Prop :=
  (∀ img ∈ sorted, st.processed.count (imageLine img) =
    (if st.placed.contains img.filename then 1 else 0)) ∧
  (∀ l ∈ st.processed, '\n' ∉ l)

/-- Recording one not-yet-placed image preserves the invariant. -/
theorem place_one_inv (sorted : List ImageInfo)
    (hnd : (sorted.map ImageInfo.filename).Nodup)
    (hok : ∀ i ∈ sorted, ']' ∉ i.filename ∧ '\n' ∉ i.filename ∧ '\n' ∉ i.url)
    (img' : ImageInfo) (h' : img' ∈ sorted) (st : IntState)
    (hc : st.placed.contains img'.filename = false) (hinv : C2Inv sorted st) :
    C2Inv sorted
      { st with processed := st.processed ++ [[], imageLine img', []],
                placed := st.placed ++ [img'.filename] } := by
  constructor
  · intro img hmem
    have hcount := hinv.1 img hmem
    show (st.processed ++ [[], imageLine img', []]).count (imageLine img) = _
    rw [List.count_append]
    show _ = (if (st.placed ++ [img'.filename]).contains img.filename then 1 else 0)
    rw [contains_append_singleton]
    have h0 : ((imageLine img) == ([] : List Char)) = false :=
      beq_eq_false_iff_ne.mpr (imageLine_ne_nil img)
    by_cases heq : imageLine img' = imageLine img
    · have hfn : img'.filename = img.filename :=
        imageLine_filename_eq img' img (hok img' h').1 (hok img hmem).1 heq
      have hpl : st.placed.contains img.filename = false := hfn ▸ hc
      rw [hpl] at hcount
      have hbeq : (img'.filename == img.filename) = true := beq_iff_eq.mpr hfn
      rw [hcount, hpl, hbeq]
      simp [List.count_cons, imageLine_ne_nil img, heq]
    · have hfn : img'.filename ≠ img.filename := fun h =>
        heq (by rw [List.inj_on_of_nodup_map hnd h' hmem h])
      have hbeq : (img'.filename == img.filename) = false :=
        beq_eq_false_iff_ne.mpr hfn
      have hbl : ((imageLine img) == (imageLine img')) = false :=
        beq_eq_false_iff_ne.mpr (fun h => heq h.symm)
      rw [hbeq, Bool.or_false, hcount]
      simp [List.count_cons, h0, hbl]
      exact ⟨⟨imageLine_ne_nil img, heq⟩, imageLine_ne_nil img⟩
  · intro l hl
    rcases List.mem_append.mp hl with h | h
    · exact hinv.2 l h
    · rcases List.mem_cons.mp h with h | h
      · simp [h]
      rcases List.mem_cons.mp h with h | h
      · exact h ▸ imageLine_no_nl img' (hok img' h').2.1 (hok img' h').2.2
      · simp at h
        simp [h]

/-- The context-placement pass preserves the invariant. -/
theorem contextPlacePass_inv (sorted : List ImageInfo)
    (hnd : (sorted.map ImageInfo.filename).Nodup)
    (hok : ∀ i ∈ sorted, ']' ∉ i.filename ∧ '\n' ∉ i.filename ∧ '\n' ∉ i.url)
    (lines : List (List Char)) (i : Nat) (line : List Char) :
    ∀ (pageImgs : List ImageInfo), (∀ x ∈ pageImgs, x ∈ sorted) →
      ∀ (st : IntState), C2Inv sorted st →
        C2Inv sorted (contextPlacePass lines i line pageImgs st) := by
  intro pageImgs
  induction pageImgs with
  | nil => intro _ st hinv; exact hinv
  | cons img rest ih =>
    intro hsub st hinv
    have hrest : ∀ x ∈ rest, x ∈ sorted := fun x hx => hsub x (List.mem_cons_of_mem _ hx)
    by_cases h1 : st.placed.contains img.filename
    · simp only [contextPlacePass, if_pos h1]
      exact ih hrest st hinv
    · have hc : st.placed.contains img.filename = false := by
        revert h1; cases st.placed.contains img.filename <;> simp
      by_cases h2 : should_place_image_here line img lines i
      · simp only [contextPlacePass, hc, Bool.false_eq_true, if_false, if_pos h2]
        exact ih hrest _
          (place_one_inv sorted hnd hok img (hsub img (List.mem_cons_self _ _)) st hc hinv)
      · simp only [contextPlacePass, hc, Bool.false_eq_true, if_false, if_neg h2]
        exact ih hrest st hinv

/-- Placing the first unplaced image of a page list preserves the
invariant. -/
theorem headingPlaceOne_inv (sorted : List ImageInfo)
    (hnd : (sorted.map ImageInfo.filename).Nodup)
    (hok : ∀ i ∈ sorted, ']' ∉ i.filename ∧ '\n' ∉ i.filename ∧ '\n' ∉ i.url)
    (imgs : List ImageInfo) (hsub : ∀ x ∈ imgs, x ∈ sorted)
    (st : IntState) (hinv : C2Inv sorted st) :
    C2Inv sorted (headingPlaceOne imgs st) := by
  unfold headingPlaceOne
  cases hfind : imgs.find? (fun img => !st.placed.contains img.filename) with
  | none => exact hinv
  | some img' =>
    have hmem : img' ∈ imgs := List.mem_of_find?_eq_some hfind
    have hpred := List.find?_some hfind
    have hc : st.placed.contains img'.filename = false := by
      revert hpred; cases st.placed.contains img'.filename <;> simp
    exact place_one_inv sorted hnd hok img' (hsub img' hmem) st hc hinv

/-- The after-heading placement pass preserves the invariant. -/
theorem headingPlacePass_inv (sorted : List ImageInfo)
    (hnd : (sorted.map ImageInfo.filename).Nodup)
    (hok : ∀ i ∈ sorted, ']' ∉ i.filename ∧ '\n' ∉ i.filename ∧ '\n' ∉ i.url)
    (st : IntState) (hinv : C2Inv sorted st) :
    C2Inv sorted (headingPlacePass sorted st) := by
  unfold headingPlacePass
  dsimp only
  split
  · exact headingPlaceOne_inv sorted hnd hok _
      (fun x hx => (List.mem_filter.mp hx).1) st hinv
  · exact hinv

/-- One loop iteration preserves the invariant, provided the emitted
content line is none of the records' reference lines and holds no
newline. -/
theorem integrateStep_inv (sorted : List ImageInfo)
    (hnd : (sorted.map ImageInfo.filename).Nodup)
    (hok : ∀ i ∈ sorted, ']' ∉ i.filename ∧ '\n' ∉ i.filename ∧ '\n' ∉ i.url)
    (lines : List (List Char)) (i : Nat) (line : List Char)
    (hline : ∀ img ∈ sorted, line ≠ imageLine img) (hnl : '\n' ∉ line)
    (st : IntState) (hinv : C2Inv sorted st) :
    C2Inv sorted (integrateStep lines sorted i line st) := by
  have h1 : C2Inv sorted
      { processed := st.processed ++ [line], placed := st.placed,
        currentPage := st.currentPage } := by
    constructor
    · intro img hmem
      show (st.processed ++ [line]).count (imageLine img) = _
      rw [List.count_append]
      have hz : ([line] : List (List Char)).count (imageLine img) = 0 := by
        simp only [List.count_cons, List.count_nil, Nat.zero_add,
          ite_eq_right_iff]
        intro h
        exact absurd (beq_iff_eq.mp h) (hline img hmem)
      rw [hz, Nat.add_zero]
      exact hinv.1 img hmem
    · intro l hl
      rcases List.mem_append.mp hl with h | h
      · exact hinv.2 l h
      · simp at h; exact h ▸ hnl
  have hmid : ∀ (stx : IntState), C2Inv sorted stx →
      C2Inv sorted (contextPlacePass lines i line
        (pageImagesFor sorted stx.currentPage) stx) :=
    fun stx hx => contextPlacePass_inv sorted hnd hok lines i line _
      (fun x hxm => (List.mem_filter.mp hxm).1) stx hx
  unfold integrateStep
  dsimp only
  have h2 : C2Inv sorted (if is_page_break_indicator line lines i = true then
      (⟨st.processed ++ [line], st.placed, st.currentPage + 1⟩ : IntState)
      else ⟨st.processed ++ [line], st.placed, st.currentPage⟩) := by
    split
    · exact ⟨h1.1, h1.2⟩
    · exact h1
  split
  · exact headingPlacePass_inv sorted hnd hok _ (hmid _ h2)
  · exact hmid _ h2

/-- The whole placement loop preserves the invariant. -/
theorem integrateGo_inv (sorted : List ImageInfo)
    (hnd : (sorted.map ImageInfo.filename).Nodup)
    (hok : ∀ i ∈ sorted, ']' ∉ i.filename ∧ '\n' ∉ i.filename ∧ '\n' ∉ i.url)
    (lines : List (List Char)) :
    ∀ (suffix : List (List Char)),
      (∀ l ∈ suffix, (∀ img ∈ sorted, l ≠ imageLine img) ∧ '\n' ∉ l) →
      ∀ (i : Nat) (st : IntState), C2Inv sorted st →
        C2Inv sorted (integrateGo lines sorted suffix i st) := by
  intro suffix
  induction suffix with
  | nil => intro _ i st hinv; exact hinv
  | cons line rest ih =>
    intro hall i st hinv
    have hhead := hall line (List.mem_cons_self _ _)
    have hrest : ∀ l ∈ rest, (∀ img ∈ sorted, l ≠ imageLine img) ∧ '\n' ∉ l :=
      fun l hl => hall l (List.mem_cons_of_mem _ hl)
    show C2Inv sorted (integrateGo lines sorted rest (i + 1)
      (integrateStep lines sorted i line st))
    exact ih hrest (i + 1) _
      (integrateStep_inv sorted hnd hok lines i line hhead.1 hhead.2 st hinv)

/-- The reference-line count of the trailing-image list. -/
theorem trailing_foldr_count (x : List Char) (hx0 : x ≠ []) :
    ∀ us : List ImageInfo,
      (us.foldr (fun img acc => imageLine img :: [] :: acc) []).count x =
        (us.map imageLine).count x := by
  intro us
  induction us with
  | nil => rfl
  | cons u us' ih =>
    simp only [List.foldr_cons, List.map_cons, List.count_cons, ih]
    have h0 : (x == ([] : List Char)) = false := beq_eq_false_iff_ne.mpr hx0
    simp [List.count_cons, h0]
    exact hx0

/-- The reference-line count of the whole trailing block. -/
theorem trailingBlock_count (header x : List Char) (unplaced : List ImageInfo)
    (hx0 : x ≠ []) (hx1 : x ≠ str "---") (hx2 : x ≠ header) :
    (trailingBlock header unplaced).count x = (unplaced.map imageLine).count x := by
  unfold trailingBlock
  rw [List.count_append]
  have h0 : (x == ([] : List Char)) = false := beq_eq_false_iff_ne.mpr hx0
  have h1 : (x == str "---") = false := beq_eq_false_iff_ne.mpr hx1
  have h2 : (x == header) = false := beq_eq_false_iff_ne.mpr hx2
  have hpre : ([[], str "---", [], header, []] : List (List Char)).count x = 0 := by
    simp [List.count_cons, h0, h1, h2]
    exact ⟨⟨⟨⟨hx0, fun h => hx2 h.symm⟩, hx0⟩, fun h => hx1 h.symm⟩, hx0⟩
  rw [hpre, Nat.zero_add, trailing_foldr_count x hx0]

/-- No newline in the interleaved trailing-image lines. -/
theorem trailing_foldr_no_nl (unplaced : List ImageInfo)
    (hu : ∀ u ∈ unplaced, '\n' ∉ imageLine u) :
    ∀ l ∈ unplaced.foldr (fun img acc => imageLine img :: [] :: acc) [],
      '\n' ∉ l := by
  induction unplaced with
  | nil => intro l hl; simp at hl
  | cons u us ih =>
    intro l hl
    simp only [List.foldr_cons] at hl
    rcases List.mem_cons.mp hl with h | h
    · exact h ▸ hu u (List.mem_cons_self _ _)
    rcases List.mem_cons.mp h with h | h
    · simp [h]
    · exact ih (fun v hv => hu v (List.mem_cons_of_mem _ hv)) l h

/-- No newline in the trailing block when filenames and urls are
newline-free. -/
theorem trailingBlock_no_nl (unplaced : List ImageInfo)
    (hu : ∀ u ∈ unplaced, '\n' ∉ imageLine u) :
    ∀ l ∈ trailingBlock (str "## Document Images") unplaced, '\n' ∉ l := by
  intro l hl
  unfold trailingBlock at hl
  rcases List.mem_append.mp hl with h | h
  · fin_cases h <;> decide
  · exact trailing_foldr_no_nl unplaced hu l h

/-- The final line list of `_integrate_images_into_markdown` for a
nonempty image list (the function's body after the emptiness guard). -/
def integrateFinalLines (content : List Char) (images : List ImageInfo) :
    List (List Char) :=
  let lines := pySplitNl content
  let sorted := images.insertionSort (fun a b => imgSortLe a b = true)
  let st := integrateGo lines sorted lines 0 ⟨[], [], 1⟩
  let unplaced := sorted.filter (fun img => !st.placed.contains img.filename)
  if unplaced.isEmpty then st.processed
  else st.processed ++ trailingBlock (str "## Document Images") unplaced

/-- For nonempty image lists the integrator joins `integrateFinalLines`. -/
theorem integrate_eq (content : List Char) (images : List ImageInfo)
    (h : images.isEmpty = false) :
    integrate_images_into_markdown content images =
      pyJoinNl (integrateFinalLines content images) := by
  unfold integrate_images_into_markdown integrateFinalLines
  simp [h]

/-- Core of C2: in the final line list every record's reference line
occurs exactly once, and no line holds a newline. -/
theorem integrateFinalLines_spec (content : List Char) (images : List ImageInfo)
    (hnd : (images.map ImageInfo.filename).Nodup)
    (hok : ∀ i ∈ images, ']' ∉ i.filename ∧ '\n' ∉ i.filename ∧ '\n' ∉ i.url)
    (hclean : ∀ l ∈ pySplitNl content, ∀ i ∈ images, l ≠ imageLine i)
    (img : ImageInfo) (hmem : img ∈ images) :
    (integrateFinalLines content images).count (imageLine img) = 1 ∧
    (∀ l ∈ integrateFinalLines content images, '\n' ∉ l) := by
  unfold integrateFinalLines
  dsimp only
  have hperm : (images.insertionSort (fun a b => imgSortLe a b = true)).Perm images :=
    List.perm_insertionSort _ _
  set sorted := images.insertionSort (fun a b => imgSortLe a b = true) with hsorted
  set lines := pySplitNl content with hlines
  set st := integrateGo lines sorted lines 0 ⟨[], [], 1⟩ with hst
  set unplaced := sorted.filter (fun i => !st.placed.contains i.filename) with hunpl
  have hmem' : img ∈ sorted := hperm.mem_iff.mpr hmem
  have hnd' : (sorted.map ImageInfo.filename).Nodup :=
    ((hperm.map ImageInfo.filename).nodup_iff).mpr hnd
  have hok' : ∀ i ∈ sorted, ']' ∉ i.filename ∧ '\n' ∉ i.filename ∧ '\n' ∉ i.url :=
    fun i hi => hok i (hperm.mem_iff.mp hi)
  have hclean' : ∀ l ∈ lines, (∀ i ∈ sorted, l ≠ imageLine i) ∧ '\n' ∉ l :=
    fun l hl => ⟨fun i hi => hclean l hl i (hperm.mem_iff.mp hi),
      mem_splitNl_no_nl content l hl⟩
  have hinv0 : C2Inv sorted ⟨[], [], 1⟩ :=
    ⟨fun i _ => rfl, fun l hl => by simp at hl⟩
  have hinv : C2Inv sorted st :=
    integrateGo_inv sorted hnd' hok' lines lines hclean' 0 _ hinv0
  have hsortnd : sorted.Nodup := hnd'.of_map
  have hunodup : unplaced.Nodup := hsortnd.filter _
  have hinj : ∀ x ∈ unplaced, imageLine x = imageLine img → x = img := by
    intro x hx hline
    have hxs : x ∈ sorted := (List.mem_filter.mp hx).1
    have hfn : x.filename = img.filename :=
      imageLine_filename_eq x img (hok' x hxs).1 (hok' img hmem').1 hline
    exact List.inj_on_of_nodup_map hnd' hxs hmem' hfn
  have hmapcount := count_map_nodup imageLine img unplaced hinj hunodup
  have hx1 : imageLine img ≠ str "---" := imageLine_ne img _ (by decide)
  have hx2 : imageLine img ≠ str "## Document Images" :=
    imageLine_ne img _ (by decide)
  have htc := trailingBlock_count (str "## Document Images") (imageLine img)
    unplaced (imageLine_ne_nil img) hx1 hx2
  have htn := trailingBlock_no_nl unplaced (fun u hu =>
    imageLine_no_nl u (hok' u (List.mem_filter.mp hu).1).2.1
      (hok' u (List.mem_filter.mp hu).1).2.2)
  by_cases hplaced : st.placed.contains img.filename
  · have hc1 : st.processed.count (imageLine img) = 1 := by
      rw [hinv.1 img hmem', if_pos hplaced]
    have hnotun : img ∉ unplaced := by
      intro hin
      have h2 := (List.mem_filter.mp hin).2
      rw [hplaced] at h2
      simp at h2
    constructor
    · split
      · exact hc1
      · rw [List.count_append, hc1, htc, hmapcount, if_neg hnotun]
    · intro l hl
      revert hl
      split
      · intro hl; exact hinv.2 l hl
      · intro hl
        rcases List.mem_append.mp hl with h | h
        · exact hinv.2 l h
        · exact htn l h
  · have hplf : st.placed.contains img.filename = false := by
      revert hplaced; cases st.placed.contains img.filename <;> simp
    have hc0 : st.processed.count (imageLine img) = 0 := by
      rw [hinv.1 img hmem', hplf]; rfl
    have hin : img ∈ unplaced := List.mem_filter.mpr ⟨hmem', by rw [hplf]; rfl⟩
    have hcond : ¬(unplaced.isEmpty = true) := by
      intro hemp
      rw [List.isEmpty_iff.mp hemp] at hin
      simp at hin
    constructor
    · rw [if_neg hcond, List.count_append, hc0, htc, hmapcount, if_pos hin]
    · intro l hl
      rw [if_neg hcond] at hl
      rcases List.mem_append.mp hl with h | h
      · exact hinv.2 l h
      · exact htn l h

/-- C2 (amended): provided the records' filenames are pairwise distinct,
hold no `]` and no newline, the urls hold no newline, and no input line
already equals one of the records' reference lines, every record's
Markdown reference `![filename](url)` appears exactly once as a line of
the page-based integrator's output — inserted inline or in the trailing
`## Document Images` section, never duplicated and never dropped.  (A
record's *filename text* can still occur additionally in ordinary
content, `spec_c2_counterexample`.) -/
theorem spec_c2_amended (content : List Char) (images : List ImageInfo)
    (hnd : (images.map ImageInfo.filename).Nodup)
    (hok : ∀ i ∈ images, ']' ∉ i.filename ∧ '\n' ∉ i.filename ∧ '\n' ∉ i.url)
    (hclean : ∀ l ∈ pySplitNl content, ∀ i ∈ images, l ≠ imageLine i) :
    ∀ img ∈ images,
      (pySplitNl (integrate_images_into_markdown content images)).count
        (imageLine img) = 1 := by
  intro img hmem
  have hne : images.isEmpty = false := by
    cases images with
    | nil => cases hmem
    | cons a l => rfl
  have hspec := integrateFinalLines_spec content images hnd hok hclean img hmem
  have hfne : integrateFinalLines content images ≠ [] := by
    intro h
    rw [h] at hspec
    simp at hspec
  rw [integrate_eq content images hne, splitNl_joinNl _ hfne hspec.2]
  exact hspec.1

/-- Witness for the amended C2: two distinct records over a three-line
content. -/
theorem spec_c2_amended_witness :
    (pySplitNl (integrate_images_into_markdown (str "Intro\n# A\ntext")
        [bareImg "a.png" "u1", bareImg "b.png" "u2"])).count
      (imageLine (bareImg "a.png" "u1")) = 1 :=
  spec_c2_amended (str "Intro\n# A\ntext")
    [bareImg "a.png" "u1", bareImg "b.png" "u2"]
    (by decide) (by decide) (by decide) (bareImg "a.png" "u1") (by decide)
